import Mathlib

/-!
# ClickHouse span storage plugin: batch writer, tag projection, factory

A shallow embedding of `plugin/storage/clickhouse` (`spanstore/writer.go`,
`factory.go`, `options.go`) and the properties proved about it.

Conventions of the embedding.

* A Go `string` is a Lean `String`. Go orders strings bytewise; on valid UTF-8
  this is the code-point order used by Lean.
* A Go `error` is `Option Err`: `none` is `nil`.
* `time.Time` readings and `time.Duration` values are integers (nanoseconds on the
  monotonic clock).
* Packages outside the plugin (`model`, `encoding/json`, `proto`, the Go runtime)
  enter through the record `Deps`; the database enters as an oracle `Db` answering
  every call from the history of the calls made so far.
-/

namespace Clickhouse

/-! ## Data model (`github.com/jaegertracing/jaeger/model`) -/

/-- Go error values: errors handed over by a library, and the errors the plugin builds
with `fmt.Errorf` (the message text is not modelled, its parts are kept). -/
inductive Err where
  | external (msg : String)
  | unknownEncoding (got : String)
  | connectingPrimary (cause : Err)
  | connectingArchive (cause : Err)
deriving DecidableEq

/-- A `model.KeyValue`: the key and the typed value (kept abstract). -/
structure KeyValue (V : Type) where
  Key : String
  Value : V
deriving DecidableEq

/-- A `model.Log`: one log event of a span. -/
structure Log (V : Type) where
  Timestamp : Int
  Fields : List (KeyValue V)
deriving DecidableEq

/-- A `model.Process`: the process that emitted the span. -/
structure Process (V : Type) where
  ServiceName : String
  Tags : List (KeyValue V)
deriving DecidableEq

/-- A `model.TraceID`. -/
structure TraceID where
  High : Nat
  Low : Nat
deriving DecidableEq

/-- A `model.Span`, with the fields read by the writer. -/
structure Span (V : Type) where
  TraceID : TraceID
  OperationName : String
  StartTime : Int
  Duration : Int
  Tags : List (KeyValue V)
  Process : Process V
  Logs : List (Log V)
deriving DecidableEq

/-- What the writer uses from outside the plugin: `KeyValue.AsString`,
`TraceID.String`, `json.Marshal`, `proto.Marshal`, and the capacity the Go runtime
gives a slice of capacity `c` when `append` has to reallocate it. -/
structure Deps (V : Type) where
  AsString : KeyValue V → String
  TraceIDString : TraceID → String
  jsonMarshal : Span V → Except Err (List Nat)
  protoMarshal : Span V → Except Err (List Nat)
  growCap : Nat → Nat

/-! ## Tag projection (`uniqueTagsForSpan`, `tagString`) -/

/-- `tagString`: the builder is reset, then receives the key, `=` and the rendered
value. -/
def tagString {V : Type} (d : Deps V) (kv : KeyValue V) : String :=
  kv.Key ++ "=" ++ d.AsString kv

/-- Assignment `m[k] = struct{}{}` on a `map[string]struct{}`, the map being the
list of its keys. -/
def mapSet (m : List String) (k : String) : List String :=
  if k ∈ m then m else m ++ [k]

/-- `sort.Strings`: ascending order. -/
def sortStrings (l : List String) : List String :=
  List.insertionSort (· ≤ ·) l

/-- `uniqueTagsForSpan`. The keys of the map are ranged over in insertion order
here; Go leaves that order unspecified and the final sort erases it. -/
def uniqueTagsForSpan {V : Type} (d : Deps V) (span : Span V) : List String :=
  let uniqueTags : List String := []
  let uniqueTags := span.Tags.foldl (fun m kv => mapSet m (tagString d kv)) uniqueTags
  let uniqueTags := span.Process.Tags.foldl (fun m kv => mapSet m (tagString d kv)) uniqueTags
  let uniqueTags := span.Logs.foldl
    (fun m event => event.Fields.foldl (fun m kv => mapSet m (tagString d kv)) m) uniqueTags
  let tags := uniqueTags.foldl (fun tags kv => tags ++ [kv]) []
  sortStrings tags


/-! ## Batch persistence (`writeBatch`, `writeModelBatch`, `writeIndexBatch`) -/

/-- Encoding of the stored spans. -/
abbrev Encoding := String

/-- `EncodingJSON`. -/
def EncodingJSON : Encoding := "json"

/-- `EncodingProto`. -/
def EncodingProto : Encoding := "protobuf"

/-- The configuration fields of `SpanWriter`. `size` is a length: `NewSpanWriter`
panics in `make` on a negative one. The channels are part of `Sys` below. -/
structure SpanWriter where
  indexTable : String
  spansTable : String
  encoding : Encoding
  delay : Int
  size : Nat

/-- A value bound to a placeholder of an insert statement. -/
inductive SqlArg where
  | time (t : Int)
  | text (s : String)
  | blob (b : List Nat)
  | int (i : Int)
  | texts (l : List String)
deriving DecidableEq

/-- The calls the writer makes on `database/sql`: `db.Begin`, `tx.Prepare`,
`statement.Exec`, `tx.Commit`, `tx.Rollback`, `statement.Close`. -/
inductive DbOp where
  | begin
  | prepare (query : String)
  | exec (args : List SqlArg)
  | commit
  | rollback
  | stmtClose
deriving DecidableEq

/-- A behaviour of the database: the error (or `nil`) returned by a call, given the
calls made before it. -/
abbrev Db := List DbOp → DbOp → Option Err

/-- `Duration.Microseconds`: integer division truncated toward zero. -/
def Microseconds (dur : Int) : Int := Int.tdiv dur 1000

/-- The loop `for _, span := range batch` of `writeModelBatch`: serialise, then
execute the statement; the first error ends the loop. -/
def execModelRows {V : Type} (d : Deps V) (w : SpanWriter) (db : Db) :
    List (Span V) → List DbOp → Option Err × List DbOp
  | [], log => (none, log)
  | span :: rest, log =>
    match (if w.encoding = EncodingJSON then d.jsonMarshal span else d.protoMarshal span) with
    | .error err => (some err, log)
    | .ok serialized =>
      let op := DbOp.exec
        [.time span.StartTime, .text (d.TraceIDString span.TraceID), .blob serialized]
      match db log op with
      | some err => (some err, log ++ [op])
      | none => execModelRows d w db rest (log ++ [op])

/-- `writeModelBatch`. Returns the error and the calls made on the database, the
deferred `statement.Close` and `tx.Rollback` included, in the order they run. -/
def writeModelBatch {V : Type} (d : Deps V) (w : SpanWriter) (db : Db) (log : List DbOp)
    (batch : List (Span V)) : Option Err × List DbOp :=
  match db log .begin with
  | some err => (some err, log ++ [.begin])
  | none =>
    let log := log ++ [.begin]
    let query := "INSERT INTO " ++ w.spansTable ++ " (timestamp, traceID, model) VALUES (?, ?, ?)"
    match db log (.prepare query) with
    | some _ => (none, log ++ [.prepare query, .rollback])
    | none =>
      match execModelRows d w db batch (log ++ [.prepare query]) with
      | (some err, log) => (some err, log ++ [.stmtClose, .rollback])
      | (none, log) => (db log .commit, log ++ [.commit, .stmtClose])

/-- The loop `for _, span := range batch` of `writeIndexBatch`. -/
def execIndexRows {V : Type} (d : Deps V) (db : Db) :
    List (Span V) → List DbOp → Option Err × List DbOp
  | [], log => (none, log)
  | span :: rest, log =>
    let op := DbOp.exec
      [.time span.StartTime, .text (d.TraceIDString span.TraceID),
       .text span.Process.ServiceName, .text span.OperationName,
       .int (Microseconds span.Duration), .texts (uniqueTagsForSpan d span)]
    match db log op with
    | some err => (some err, log ++ [op])
    | none => execIndexRows d db rest (log ++ [op])

/-- `writeIndexBatch`. -/
def writeIndexBatch {V : Type} (d : Deps V) (w : SpanWriter) (db : Db) (log : List DbOp)
    (batch : List (Span V)) : Option Err × List DbOp :=
  match db log .begin with
  | some err => (some err, log ++ [.begin])
  | none =>
    let log := log ++ [.begin]
    let query := "INSERT INTO " ++ w.indexTable ++
      " (timestamp, traceID, service, operation, durationUs, tags) VALUES (?, ?, ?, ?, ?, ?)"
    match db log (.prepare query) with
    | some err => (some err, log ++ [.prepare query, .rollback])
    | none =>
      match execIndexRows d db batch (log ++ [.prepare query]) with
      | (some err, log) => (some err, log ++ [.stmtClose, .rollback])
      | (none, log) => (db log .commit, log ++ [.commit, .stmtClose])

/-- `writeBatch`. -/
def writeBatch {V : Type} (d : Deps V) (w : SpanWriter) (db : Db) (log : List DbOp)
    (batch : List (Span V)) : Option Err × List DbOp :=
  match writeModelBatch d w db log batch with
  | (some err, log) => (some err, log)
  | (none, log) =>
    if w.indexTable ≠ "" then
      match writeIndexBatch d w db log batch with
      | (some err, log) => (some err, log)
      | (none, log) => (none, log)
    else (none, log)

/-! ## Flush scheduling (`backgroundWriter`, `WriteSpan`, `Close`) -/

/-- A Go slice: its elements and its capacity. -/
structure Slice (α : Type) where
  elems : List α
  cap : Nat
deriving DecidableEq

/-- `make([]T, 0, n)`. -/
def Slice.make {α : Type} (n : Nat) : Slice α := ⟨[], n⟩

/-- `append(s, x)`: in place while there is room, else into a reallocated array
whose capacity is chosen by the runtime. -/
def Slice.append {α V : Type} (d : Deps V) (s : Slice α) (x : α) : Slice α :=
  if s.elems.length < s.cap then ⟨s.elems ++ [x], s.cap⟩
  else ⟨s.elems ++ [x], d.growCap s.cap⟩

/-- The case taken by the `select` of one iteration, with the clock readings made in
it: `rearm` is the instant of the new `time.After`, `since` the instant at which
`time.Since(last)` is evaluated. -/
inductive Event (V : Type) where
  | span (s : Span V)
  | timer (rearm : Int) (since : Int)
  | finish

/-- One iteration of the loop as driven from outside: the case selected and the
reading `time.Now()` would give after a flush. -/
structure Iter (V : Type) where
  event : Event V
  now : Int

/-- The variables of `backgroundWriter` (`batch`, the deadline of `timer`, `last`,
whether the loop was left by `break`) and what it has done so far: the calls on the
database, the errors given to `logger.Error`, and the arguments of its `writeBatch`
calls in call order. -/
structure Loop (V : Type) where
  batch : Slice (Span V)
  deadline : Int
  last : Int
  stopped : Bool
  log : List DbOp
  errors : List Err
  flushed : List (List (Span V))

/-- The scheduling variables of the loop and the batches it has flushed: the state
without the database history and the logged errors. -/
def Loop.sched {V : Type} (st : Loop V) :
    Slice (Span V) × Int × Int × Bool × List (List (Span V)) :=
  (st.batch, st.deadline, st.last, st.stopped, st.flushed)

/-- The result of the `select` statement: the updated variables, `flush`, `finish`. -/
structure Selected (V : Type) where
  loop : Loop V
  flush : Bool
  finish : Bool

/-- The `select` statement of `backgroundWriter`. -/
def selectCase {V : Type} (d : Deps V) (w : SpanWriter) (st : Loop V) :
    Event V → Selected V
  | .span span =>
    let batch := st.batch.append d span
    ⟨{ st with batch := batch }, batch.elems.length == batch.cap, false⟩
  | .timer rearm since =>
    ⟨{ st with deadline := rearm + w.delay },
      decide (since - st.last > w.delay) && decide (st.batch.elems.length > 0), false⟩
  | .finish => ⟨st, decide (st.batch.elems.length > 0), true⟩

/-- The `if flush` block: `writeBatch`, the error logged if any, a fresh buffer and a
new `last`. -/
def flushBatch {V : Type} (d : Deps V) (w : SpanWriter) (db : Db) (st : Loop V) (now : Int) :
    Loop V :=
  let r := writeBatch d w db st.log st.batch.elems
  { st with
    log := r.2
    errors := match r.1 with
      | some err => st.errors ++ [err]
      | none => st.errors
    flushed := st.flushed ++ [st.batch.elems]
    batch := Slice.make w.size
    last := now }

/-- The body of the `for` loop of `backgroundWriter`: the `select`, the `if flush`
block, and `stopped` set when the iteration ends in `break`. The wait group `w.done`,
raised and lowered around the body, shows only in `Sys.step`, where `Close` returns
after the iteration that took the finish case. -/
def iterate {V : Type} (d : Deps V) (w : SpanWriter) (db : Db) (st : Loop V) (it : Iter V) :
    Loop V :=
  let sel := selectCase d w st it.event
  let st := if sel.flush then flushBatch d w db sel.loop it.now else sel.loop
  { st with stopped := sel.finish }

/-- The variables of `backgroundWriter` when it enters its loop: `armed` and `start`
are the instants of `time.After(w.delay)` and of `last := time.Now()`. -/
def Loop.init {V : Type} (w : SpanWriter) (armed start : Int) : Loop V :=
  { batch := Slice.make w.size, deadline := armed + w.delay, last := start, stopped := false,
    log := [], errors := [], flushed := [] }

/-- The loop run from a state over a sequence of iterations; after the `break` nothing
more is processed. -/
def runFrom {V : Type} (d : Deps V) (w : SpanWriter) (db : Db) (st : Loop V)
    (its : List (Iter V)) : Loop V :=
  its.foldl (fun st it => if st.stopped then st else iterate d w db st it) st

/-- `backgroundWriter`, run over a sequence of iterations. -/
def backgroundWriter {V : Type} (d : Deps V) (w : SpanWriter) (db : Db) (armed start : Int)
    (its : List (Iter V)) : Loop V :=
  runFrom d w db (Loop.init w armed start) its

/-- The timer case can be selected only once the timer has fired, that is at or after
its deadline, and its two clock readings are taken in program order; the other two
cases depend on the channels (see `Sys`). -/
def Event.timerDue {V : Type} (st : Loop V) : Event V → Bool
  | .timer rearm since => decide (st.deadline ≤ rearm) && decide (rearm ≤ since)
  | _ => true

/-- The spans received by the loop over a sequence of iterations, in order of
arrival: the span cases up to the iteration that takes the finish case. -/
def arrivals {V : Type} : List (Iter V) → List (Span V)
  | [] => []
  | it :: its =>
    match it.event with
    | .span s => s :: arrivals its
    | .timer _ _ => arrivals its
    | .finish => []

/-- The writer as a whole: the content of the buffered channel `w.spans`, whether a
`Close` call is blocked sending on `w.finish`, whether `Close` has returned, and the
background loop. -/
structure Sys (V : Type) where
  chan : List (Span V)
  closing : Bool
  closed : Bool
  loop : Loop V

/-- The steps of the writer and of its callers: a `WriteSpan` call that sends and
returns, a `Close` call reaching its send, one iteration of the background loop. -/
inductive Action (V : Type) where
  | writeSpan (s : Span V)
  | close
  | loop (it : Iter V)

/-- One step of the whole writer, `none` when the step cannot happen in that state.
`WriteSpan` returns once the channel has taken its span, which needs room in the
buffer (for `size = 0` the hand-over to the loop is direct and is not modelled).
The loop takes the span case with the span at the head of the channel (the one it
receives, whatever the action names), the timer case once the timer is due, the finish case when a `Close` is sending; `Close`
returns when that iteration has called `w.done.Done()`. When several cases are
ready, Go's `select` takes any of them. -/
def Sys.step {V : Type} (d : Deps V) (w : SpanWriter) (db : Db) (sys : Sys V) :
    Action V → Option (Sys V)
  | .writeSpan s =>
    if sys.chan.length < w.size then some { sys with chan := sys.chan ++ [s] } else none
  | .close =>
    if sys.closing then none else some { sys with closing := true }
  | .loop it =>
    if sys.loop.stopped then none
    else
      match it.event, sys.chan with
      | .span _, [] => none
      | .span _, s :: rest =>
        some { sys with chan := rest, loop := iterate d w db sys.loop ⟨.span s, it.now⟩ }
      | .timer rearm since, _ =>
        if sys.loop.deadline ≤ rearm ∧ rearm ≤ since then
          some { sys with loop := iterate d w db sys.loop it }
        else none
      | .finish, _ =>
        if sys.closing then
          some { sys with loop := iterate d w db sys.loop it, closed := true }
        else none

/-- A run of the whole writer. -/
def Sys.run {V : Type} (d : Deps V) (w : SpanWriter) (db : Db) :
    Sys V → List (Action V) → Option (Sys V)
  | sys, [] => some sys
  | sys, a :: as =>
    match Sys.step d w db sys a with
    | none => none
    | some sys => Sys.run d w db sys as

/-- The writer as `NewSpanWriter` leaves it. -/
def Sys.init {V : Type} (w : SpanWriter) (armed start : Int) : Sys V :=
  { chan := [], closing := false, closed := false, loop := Loop.init w armed start }

/-! ## Rows of a batch, for the statements about failing rows -/

/-- The serialisation a span gets in `writeModelBatch`: `json.Marshal` under
`EncodingJSON`, `proto.Marshal` otherwise. -/
def marshalSpan {V : Type} (d : Deps V) (w : SpanWriter) (span : Span V) :
    Except Err (List Nat) :=
  if w.encoding = EncodingJSON then d.jsonMarshal span else d.protoMarshal span

/-- The `statement.Exec` call of `writeModelBatch` for a span and its serialisation. -/
def modelRow {V : Type} (d : Deps V) (span : Span V) (serialized : List Nat) : DbOp :=
  .exec [.time span.StartTime, .text (d.TraceIDString span.TraceID), .blob serialized]

/-- The `statement.Exec` call of `writeIndexBatch` for a span. -/
def indexRow {V : Type} (d : Deps V) (span : Span V) : DbOp :=
  .exec
    [.time span.StartTime, .text (d.TraceIDString span.TraceID),
     .text span.Process.ServiceName, .text span.OperationName,
     .int (Microseconds span.Duration), .texts (uniqueTagsForSpan d span)]

/-- The statement prepared by `writeModelBatch`. -/
def modelQuery (w : SpanWriter) : String :=
  "INSERT INTO " ++ w.spansTable ++ " (timestamp, traceID, model) VALUES (?, ?, ?)"

/-- The statement prepared by `writeIndexBatch`. -/
def indexQuery (w : SpanWriter) : String :=
  "INSERT INTO " ++ w.indexTable ++
    " (timestamp, traceID, service, operation, durationUs, tags) VALUES (?, ?, ?, ?, ?, ?)"

/-- Every call of `rows`, made in this order after the calls `base`, returns `nil`. -/
def RowsSucceed (db : Db) (base rows : List DbOp) : Prop :=
  ∀ l₁ op l₂, rows = l₁ ++ op :: l₂ → db (base ++ l₁) op = none

/-! ## Factory (`factory.go`, `options.go`) -/

/-- A `*sql.DB` handle. -/
abbrev SqlDB := Nat

/-- A `*zap.Logger`. -/
abbrev Logger := Nat

/-- `primaryNamespace`. -/
def primaryNamespace : String := "clickhouse"

/-- `archiveNamespace`. -/
def archiveNamespace : String := "clickhouse-archive"

/-- The data fields of `namespaceConfig` (`ns` is its field `namespace`). -/
structure NamespaceFields where
  ns : String
  Enabled : Bool
  Datasource : String
  OperationsTable : String
  IndexTable : String
  SpansTable : String
  WriteBatchDelay : Int
  WriteBatchSize : Int
  Encoding : Encoding
deriving DecidableEq

/-- `Connector`: how to connect to the database. It receives the configuration it is
a field of; here it receives the data fields of that configuration. -/
abbrev Connector := NamespaceFields → Option SqlDB × Option Err

/-- `namespaceConfig`. -/
structure namespaceConfig extends NamespaceFields where
  Connector : Connector

/-- `Options`: the primary configuration and the map of the others. -/
structure Options where
  primary : namespaceConfig
  others : List (String × namespaceConfig)

/-- `Options.getPrimary`. -/
def Options.getPrimary (opt : Options) : namespaceConfig := opt.primary

/-- Lookup `opt.others[name]`; `none` is the nil pointer of a missing key. -/
def Options.other (opt : Options) (name : String) : Option namespaceConfig :=
  (opt.others.find? (fun e => e.1 == name)).map (·.2)

/-- `Factory`, over the types `R` and `W` of the readers and writers it makes. -/
structure Factory (R W : Type) where
  logger : Option Logger
  Options : Options
  db : Option SqlDB
  archive : Option SqlDB
  makeReader : Option SqlDB → String → String → String → Option R × Option Err
  makeWriter : Option Logger → Option SqlDB → String → String → Encoding → Int → Int →
    Option W × Option Err

/-- What a method returning `error` does: return `nil`, return an error, or panic. -/
inductive Outcome where
  | ok
  | failed (err : Err)
  | panicked
deriving DecidableEq

/-- `Factory.connect`. Besides the handle and the error it returns the invocations of
connectors so far, each with the configuration it received. -/
def Factory.connect (cfg : namespaceConfig) (calls : List NamespaceFields) :
    (Option SqlDB × Option Err) × List NamespaceFields :=
  if cfg.Encoding ≠ EncodingJSON ∧ cfg.Encoding ≠ EncodingProto then
    ((none, some (.unknownEncoding cfg.Encoding)), calls)
  else (cfg.Connector cfg.toNamespaceFields, calls ++ [cfg.toNamespaceFields])

/-- `Factory.Initialize`: the factory afterwards, what the call did, and the
invocations of connectors. -/
def Factory.Initialize {R W : Type} (f : Factory R W) (logger : Logger)
    (calls : List NamespaceFields) : Factory R W × Outcome × List NamespaceFields :=
  let f := { f with logger := some logger }
  match Factory.connect f.Options.getPrimary calls with
  | ((_, some err), calls) => (f, .failed (.connectingPrimary err), calls)
  | ((db, none), calls) =>
    let f := { f with db := db }
    match f.Options.other archiveNamespace with
    | none => (f, .panicked, calls)
    | some archiveConfig =>
      if archiveConfig.Enabled then
        match Factory.connect archiveConfig calls with
        | ((_, some err), calls) => (f, .failed (.connectingArchive err), calls)
        | ((archive, none), calls) => ({ f with archive := archive }, .ok, calls)
      else (f, .ok, calls)

/-- `defaultDatasource`. -/
def defaultDatasource : String := "tcp://localhost:9000"

/-- `defaultOperationsTable`. -/
def defaultOperationsTable : String := "jaeger_operations_v2"

/-- `defaultIndexTable`. -/
def defaultIndexTable : String := "jaeger_index_v2"

/-- `defaultSpansTable`. -/
def defaultSpansTable : String := "jaeger_spans_v2"

/-- `defaultArchiveSpansTable`. -/
def defaultArchiveSpansTable : String := "jaeger_archive_spans_v2"

/-- `defaultWriteBatchDelay`: `5 * time.Second`. -/
def defaultWriteBatchDelay : Int := 5 * 1000000000

/-- `defaultWriteBatchSize`. -/
def defaultWriteBatchSize : Int := 10000

/-- `defaultEncoding`. -/
def defaultEncoding : Encoding := EncodingProto

/-- Assignment `m[k] = v` on the map of the other namespaces. -/
def setOther (m : List (String × namespaceConfig)) (k : String) (v : namespaceConfig) :
    List (String × namespaceConfig) :=
  if m.any (fun e => e.1 == k) then m.map (fun e => if e.1 == k then (k, v) else e)
  else m ++ [(k, v)]

/-- `NewOptions`, over the `defaultConnector` (it opens and pings the datasource). A
namespace other than the archive one gets the zero configuration, whose `Connector`
is nil: `nilConnector` stands for it. -/
def NewOptions (defaultConnector nilConnector : Connector) (primaryNamespace : String)
    (otherNamespaces : List String) : Options :=
  let options : Options :=
    { primary :=
        { ns := primaryNamespace
          Enabled := true
          Datasource := defaultDatasource
          OperationsTable := defaultOperationsTable
          IndexTable := defaultIndexTable
          SpansTable := defaultSpansTable
          WriteBatchDelay := defaultWriteBatchDelay
          WriteBatchSize := defaultWriteBatchSize
          Encoding := defaultEncoding
          Connector := defaultConnector }
      others := [] }
  otherNamespaces.foldl (fun options ns =>
    if ns = archiveNamespace then
      let cfg : namespaceConfig :=
        { ns := ns
          Enabled := false
          Datasource := defaultDatasource
          OperationsTable := ""
          IndexTable := ""
          SpansTable := defaultArchiveSpansTable
          WriteBatchDelay := defaultWriteBatchDelay
          WriteBatchSize := defaultWriteBatchSize
          Encoding := defaultEncoding
          Connector := defaultConnector }
      { options with others := setOther options.others ns cfg }
    else
      let cfg : namespaceConfig :=
        { ns := ns, Enabled := false, Datasource := "", OperationsTable := "",
          IndexTable := "", SpansTable := "", WriteBatchDelay := 0, WriteBatchSize := 0,
          Encoding := "", Connector := nilConnector }
      { options with others := setOther options.others ns cfg }) options

/-- `NewFactory`, over the constructors `store.NewTraceReader` and
`store.NewSpanWriter` of the readers and writers. -/
def NewFactory {R W : Type} (defaultConnector nilConnector : Connector)
    (NewTraceReader : Option SqlDB → String → String → String → R)
    (NewSpanWriter : Option Logger → Option SqlDB → String → String → Encoding → Int → Int → W) :
    Factory R W :=
  { logger := none
    Options := NewOptions defaultConnector nilConnector primaryNamespace [archiveNamespace]
    db := none
    archive := none
    makeReader := fun db operationsTable indexTable spansTable =>
      (some (NewTraceReader db operationsTable indexTable spansTable), none)
    makeWriter := fun logger db indexTable spansTable encoding delay size =>
      (some (NewSpanWriter logger db indexTable spansTable encoding delay size), none) }

/-! ## Readers and writers made by the factory -/

/-- The arguments of one call of a `readerMaker`. -/
structure ReaderCall where
  db : Option SqlDB
  operationsTable : String
  indexTable : String
  spansTable : String
deriving DecidableEq

/-- The arguments of one call of a `writerMaker`. -/
structure WriterCall where
  logger : Option Logger
  db : Option SqlDB
  indexTable : String
  spansTable : String
  encoding : Encoding
  delay : Int
  size : Int
deriving DecidableEq

/-- `Factory.CreateSpanReader`, with the calls of the reader maker so far. -/
def Factory.CreateSpanReader {R W : Type} (f : Factory R W) (calls : List ReaderCall) :
    (Option R × Option Err) × List ReaderCall :=
  let cfg := f.Options.getPrimary
  (f.makeReader f.db cfg.OperationsTable cfg.IndexTable cfg.SpansTable,
    calls ++ [⟨f.db, cfg.OperationsTable, cfg.IndexTable, cfg.SpansTable⟩])

/-- `Factory.CreateSpanWriter`, with the calls of the writer maker so far. -/
def Factory.CreateSpanWriter {R W : Type} (f : Factory R W) (calls : List WriterCall) :
    (Option W × Option Err) × List WriterCall :=
  let cfg := f.Options.getPrimary
  (f.makeWriter f.logger f.db cfg.IndexTable cfg.SpansTable cfg.Encoding cfg.WriteBatchDelay
      cfg.WriteBatchSize,
    calls ++ [⟨f.logger, f.db, cfg.IndexTable, cfg.SpansTable, cfg.Encoding,
      cfg.WriteBatchDelay, cfg.WriteBatchSize⟩])

/-- `Factory.CreateArchiveSpanReader`; `none` is the panic of reading a field through
the nil pointer of a missing archive configuration. -/
def Factory.CreateArchiveSpanReader {R W : Type} (f : Factory R W) (calls : List ReaderCall) :
    Option ((Option R × Option Err) × List ReaderCall) :=
  match f.archive with
  | none => some ((none, none), calls)
  | some archive =>
    match f.Options.other archiveNamespace with
    | none => none
    | some cfg =>
      some (f.makeReader (some archive) cfg.OperationsTable cfg.IndexTable cfg.SpansTable,
        calls ++ [⟨some archive, cfg.OperationsTable, cfg.IndexTable, cfg.SpansTable⟩])

/-- `Factory.CreateArchiveSpanWriter`; `none` is the panic of reading a field through
the nil pointer of a missing archive configuration. -/
def Factory.CreateArchiveSpanWriter {R W : Type} (f : Factory R W) (calls : List WriterCall) :
    Option ((Option W × Option Err) × List WriterCall) :=
  match f.archive with
  | none => some ((none, none), calls)
  | some archive =>
    match f.Options.other archiveNamespace with
    | none => none
    | some cfg =>
      some (f.makeWriter f.logger (some archive) "" cfg.SpansTable cfg.Encoding
          cfg.WriteBatchDelay cfg.WriteBatchSize,
        calls ++ [⟨f.logger, some archive, "", cfg.SpansTable, cfg.Encoding,
          cfg.WriteBatchDelay, cfg.WriteBatchSize⟩])

/-! ## Flags and viper (`addFlags`, `initFromViper`)

The packages `flag`, `pflag` and `viper` as the options use them: flags registered
with a default, a command line that assigns values to registered flags, and a viper
bound to the flag set that also has other sources of values (environment variables,
a configuration file). Its getters read a key from a flag set on the command line,
else from the other sources, else from the default of the flag of that name. -/

/-- The value of a flag: `bool`, `string`, `time.Duration` or `int`. -/
inductive FlagValue where
  | bool (b : Bool)
  | string (s : String)
  | duration (d : Int)
  | int (i : Int)
deriving DecidableEq

/-- The type a flag was registered with. -/
def FlagValue.kind : FlagValue → Nat
  | .bool _ => 0
  | .string _ => 1
  | .duration _ => 2
  | .int _ => 3

/-- A registered flag: its name, its value (the default until it is set) and whether
the command line has set it. -/
structure Flag where
  name : String
  value : FlagValue
  changed : Bool
deriving DecidableEq

/-- A `flag.FlagSet`: the flags in order of registration. -/
structure FlagSet where
  flags : List Flag
deriving DecidableEq

/-- The flag of a name, if one is registered. -/
def FlagSet.lookup (flagSet : FlagSet) (name : String) : Option Flag :=
  flagSet.flags.find? (fun f => f.name == name)

/-- `flagSet.Var`: registers a flag; `none` is the panic on a name already defined. -/
def FlagSet.Var (flagSet : FlagSet) (name : String) (value : FlagValue) : Option FlagSet :=
  if flagSet.flags.any (fun f => f.name == name) then none
  else some ⟨flagSet.flags ++ [⟨name, value, false⟩]⟩

/-- `flagSet.Bool(name, value, usage)`. -/
def FlagSet.BoolVar (flagSet : FlagSet) (name : String) (value : Bool) : Option FlagSet :=
  flagSet.Var name (.bool value)

/-- `flagSet.String(name, value, usage)`. -/
def FlagSet.StringVar (flagSet : FlagSet) (name : String) (value : String) : Option FlagSet :=
  flagSet.Var name (.string value)

/-- `flagSet.Duration(name, value, usage)`. -/
def FlagSet.DurationVar (flagSet : FlagSet) (name : String) (value : Int) : Option FlagSet :=
  flagSet.Var name (.duration value)

/-- `flagSet.Int(name, value, usage)`. -/
def FlagSet.IntVar (flagSet : FlagSet) (name : String) (value : Int) : Option FlagSet :=
  flagSet.Var name (.int value)

/-- The flag after `--name=value`: the flag of that name takes the value and counts as
changed, any other flag stays. -/
def Flag.assign (name : String) (value : FlagValue) (g : Flag) : Flag :=
  if g.name == name then { g with value := value, changed := true } else g

/-- One argument `--name=value` of the command line: the flag must be registered and
the text must parse as a value of its type (here the value is given parsed), else
parsing fails. -/
def FlagSet.Set (flagSet : FlagSet) (name : String) (value : FlagValue) : Option FlagSet :=
  match flagSet.lookup name with
  | none => none
  | some f =>
    if f.value.kind = value.kind then some ⟨flagSet.flags.map (Flag.assign name value)⟩
    else none

/-- `command.ParseFlags`: the arguments are applied from left to right; `none` is a
parse error. -/
def FlagSet.Parse : FlagSet → List (String × FlagValue) → Option FlagSet
  | flagSet, [] => some flagSet
  | flagSet, arg :: args =>
    match flagSet.Set arg.1 arg.2 with
    | none => none
    | some flagSet => FlagSet.Parse flagSet args

/-- A `viper.Viper` as `config.Viperize` builds it: bound to the flag set, and with
other sources of values (the environment variables it switches on, a configuration
file), which give a key a text or nothing. `toBool`, `toDuration` and `toInt` are the
conversions the typed getters apply to such a text. -/
structure Viper where
  flags : FlagSet
  env : String → Option String
  toBool : String → Bool
  toDuration : String → Int
  toInt : String → Int

/-- What viper finds for a key: the value of a flag, or the text of another source. -/
inductive Found where
  | flag (value : FlagValue)
  | text (s : String)
deriving DecidableEq

/-- The search order of viper: a flag set on the command line, then the other
sources, and last the default of a registered flag. -/
def Viper.find (v : Viper) (key : String) : Option Found :=
  match v.flags.lookup key with
  | some f =>
    if f.changed then some (.flag f.value)
    else
      match v.env key with
      | some s => some (.text s)
      | none => some (.flag f.value)
  | none => (v.env key).map .text

/-- `v.GetBool`: `false` for a key without value. A flag is read here with the getter
of the type it has; conversions between flag types are not modelled. -/
def Viper.GetBool (v : Viper) (key : String) : Bool :=
  match v.find key with
  | some (.flag (.bool b)) => b
  | some (.text s) => v.toBool s
  | _ => false

/-- `v.GetString`: the empty string for a key without value. -/
def Viper.GetString (v : Viper) (key : String) : String :=
  match v.find key with
  | some (.flag (.string s)) => s
  | some (.text s) => s
  | _ => ""

/-- `v.GetDuration`: zero for a key without value. -/
def Viper.GetDuration (v : Viper) (key : String) : Int :=
  match v.find key with
  | some (.flag (.duration d)) => d
  | some (.text s) => v.toDuration s
  | _ => 0

/-- `v.GetInt`: zero for a key without value. -/
def Viper.GetInt (v : Viper) (key : String) : Int :=
  match v.find key with
  | some (.flag (.int i)) => i
  | some (.text s) => v.toInt s
  | _ => 0

/-- `suffixEnabled`. -/
def suffixEnabled : String := ".enabled"

/-- `suffixDatasource`. -/
def suffixDatasource : String := ".datasource"

/-- `suffixOperationsTable`. -/
def suffixOperationsTable : String := ".operations-table"

/-- `suffixIndexTable`. -/
def suffixIndexTable : String := ".index-table"

/-- `suffixSpansTable`. -/
def suffixSpansTable : String := ".spans-table"

/-- `suffixWriteBatchDelay`. -/
def suffixWriteBatchDelay : String := ".write-batch-delay"

/-- `suffixWriteBatchSize`. -/
def suffixWriteBatchSize : String := ".write-batch-size"

/-- `suffixEncoding`. -/
def suffixEncoding : String := ".encoding"

/-- `addFlags`: the flags of one namespace; `none` when a registration panics. -/
def addFlags (flagSet : FlagSet) (nsConfig : namespaceConfig) : Option FlagSet := do
  let flagSet ←
    if nsConfig.ns = archiveNamespace then
      flagSet.BoolVar (nsConfig.ns ++ suffixEnabled) nsConfig.Enabled
    else some flagSet
  let flagSet ← flagSet.StringVar (nsConfig.ns ++ suffixDatasource) nsConfig.Datasource
  let flagSet ←
    if nsConfig.ns ≠ archiveNamespace then do
      let flagSet ←
        flagSet.StringVar (nsConfig.ns ++ suffixOperationsTable) nsConfig.OperationsTable
      flagSet.StringVar (nsConfig.ns ++ suffixIndexTable) nsConfig.IndexTable
    else some flagSet
  let flagSet ← flagSet.StringVar (nsConfig.ns ++ suffixSpansTable) nsConfig.SpansTable
  let flagSet ←
    flagSet.DurationVar (nsConfig.ns ++ suffixWriteBatchDelay) nsConfig.WriteBatchDelay
  let flagSet ← flagSet.IntVar (nsConfig.ns ++ suffixWriteBatchSize) nsConfig.WriteBatchSize
  flagSet.StringVar (nsConfig.ns ++ suffixEncoding) nsConfig.Encoding

/-- `Options.AddFlags`. -/
def Options.AddFlags (opt : Options) (flagSet : FlagSet) : Option FlagSet := do
  let flagSet ← addFlags flagSet opt.primary
  opt.others.foldlM (fun flagSet e => addFlags flagSet e.2) flagSet

/-- `initFromViper`. -/
def initFromViper (cfg : namespaceConfig) (v : Viper) : namespaceConfig :=
  { cfg with
    Enabled := v.GetBool (cfg.ns ++ suffixEnabled)
    Datasource := v.GetString (cfg.ns ++ suffixDatasource)
    IndexTable := v.GetString (cfg.ns ++ suffixIndexTable)
    SpansTable := v.GetString (cfg.ns ++ suffixSpansTable)
    OperationsTable := v.GetString (cfg.ns ++ suffixOperationsTable)
    WriteBatchDelay := v.GetDuration (cfg.ns ++ suffixWriteBatchDelay)
    WriteBatchSize := v.GetInt (cfg.ns ++ suffixWriteBatchSize)
    Encoding := v.GetString (cfg.ns ++ suffixEncoding) }

/-- `Options.InitFromViper`. -/
def Options.InitFromViper (opt : Options) (v : Viper) : Options :=
  { primary := initFromViper opt.primary v
    others := opt.others.map (fun e => (e.1, initFromViper e.2 v)) }

/-- The value the command line gives a flag: that of the last argument naming it. -/
def given : List (String × FlagValue) → String → Option FlagValue
  | [], _ => none
  | arg :: args, key =>
    match given args key with
    | some value => some value
    | none => if arg.1 == key then some arg.2 else none

/-- A field holds the value given on the command line for its flag when one is given;
otherwise the value another source of the viper gives the key, when there is one; and
otherwise the default. -/
def FromFlag (args : List (String × FlagValue)) (key : String) (other : Option FlagValue)
    (field dflt : FlagValue) : Prop :=
  match given args key with
  | some value => field = value
  | none =>
    match other with
    | some value => field = value
    | none => field = dflt

/-! ## Concrete inputs -/

/-- A connector that always returns the handle 1, as the mock connector of the tests
returns its one database. -/
def demoConnector : Connector := fun _ => (some 1, none)

/-- The factory of `NewFactory` with the mock connector, its primary encoding set to
`enc`. -/
def demoFactory (enc : Encoding) : Factory Unit Unit :=
  let f : Factory Unit Unit :=
    NewFactory demoConnector demoConnector (fun _ _ _ _ => ()) (fun _ _ _ _ _ _ _ => ())
  let primary : namespaceConfig := { f.Options.primary with Encoding := enc }
  let options : Options := { f.Options with primary := primary }
  { f with Options := options }

/-- Externals for the examples: a value is its own rendering and serialisation always
succeeds. The capacity given to a reallocated slice is one admissible choice (1 from
0, then doubling); runtimes differ on it (see `growDeps`), and it is consulted only
by a writer of size 0. -/
def demoDeps : Deps String :=
  { AsString := fun kv => kv.Value
    TraceIDString := fun _ => "0000000000000001"
    jsonMarshal := fun _ => .ok [123, 125]
    protoMarshal := fun _ => .ok [10, 0]
    growCap := fun c => if c = 0 then 1 else 2 * c }

/-- The externals of `demoDeps` with another growth of reallocated slices. -/
def growDeps (growCap : Nat → Nat) : Deps String :=
  { demoDeps with growCap := growCap }

/-- A span with the given tags and nothing else. -/
def demoSpan (tags : List (KeyValue String)) : Span String :=
  { TraceID := ⟨0, 1⟩, OperationName := "op", StartTime := 0, Duration := 1500,
    Tags := tags, Process := ⟨"svc", []⟩, Logs := [] }

/-- A database on which every call succeeds. -/
def dbOk : Db := fun _ _ => none

/-- A database on which preparing the insert into the spans table fails (and nothing
else does). -/
def dbPrepareFails : Db := fun _ op =>
  if op = .prepare "INSERT INTO jaeger_spans_v2 (timestamp, traceID, model) VALUES (?, ?, ?)"
  then some (.external "table jaeger_spans_v2 does not exist") else none

/-- A database on which `db.Begin` fails. -/
def dbBeginFails : Db := fun _ op =>
  match op with
  | .begin => some (.external "connection refused")
  | _ => none

/-- A writer with index table, size threshold `size` and time threshold `delay`. -/
def demoWriter (size : Nat) (delay : Int) : SpanWriter :=
  { indexTable := "jaeger_index_v2", spansTable := "jaeger_spans_v2",
    encoding := EncodingProto, delay := delay, size := size }

/-- A database on which the second `statement.Exec` of a run fails. -/
def dbSecondExecFails : Db := fun log op =>
  match op with
  | .exec _ =>
    if log.any (fun o => match o with
      | .exec _ => true
      | _ => false) then some (.external "broken pipe") else none
  | _ => none

/-- Externals whose `proto.Marshal` rejects a span that carries tags. -/
def failingDeps : Deps String :=
  { demoDeps with
    protoMarshal := fun span =>
      if span.Tags.isEmpty then .ok [10, 0] else .error (.external "cannot marshal") }

/-- The factory of `NewFactory` with the mock connector, the archive enabled and its
configuration naming an index table; the makers return their arguments. -/
def demoArchiveFactory (indexTable : String) : Factory ReaderCall WriterCall :=
  let f : Factory ReaderCall WriterCall :=
    NewFactory demoConnector demoConnector (fun db o i s => ⟨db, o, i, s⟩)
      (fun l db i s e dl sz => ⟨l, db, i, s, e, dl, sz⟩)
  let others := f.Options.others.map (fun e =>
    let cfg : namespaceConfig := { e.2 with Enabled := true, IndexTable := indexTable }
    (e.1, cfg))
  let options : Options := { f.Options with others := others }
  { f with Options := options }

/-- The command line of `TestParseOptions`. -/
def demoArgs : List (String × FlagValue) :=
  [("clickhouse.datasource",
      .string "tcp://localhost:9000?debug=true&database=jaeger_primary_huh"),
   ("clickhouse.encoding", .string "json"),
   ("clickhouse.index-table", .string "jaeger_index_huh"),
   ("clickhouse.operations-table", .string "jaeger_operations_huh"),
   ("clickhouse.spans-table", .string "jaeger_spans_huh"),
   ("clickhouse.write-batch-delay", .duration 69000000),
   ("clickhouse.write-batch-size", .int 13),
   ("clickhouse-archive.enabled", .bool true),
   ("clickhouse-archive.datasource",
      .string "tcp://localhost:9000?debug=true&database=jaeger_archive_heh"),
   ("clickhouse-archive.encoding", .string "json"),
   ("clickhouse-archive.spans-table", .string "jaeger_archive_spans_heh"),
   ("clickhouse-archive.write-batch-delay", .duration 1000000000),
   ("clickhouse-archive.write-batch-size", .int 42)]

/-- The flag set of the options of `NewOptions` after parsing a command line (empty if
registration or parsing fails). -/
def demoParsed (args : List (String × FlagValue)) : FlagSet :=
  (((NewOptions demoConnector demoConnector primaryNamespace [archiveNamespace]).AddFlags
    ⟨[]⟩).bind (fun flagSet => flagSet.Parse args)).getD ⟨[]⟩

/-- The viper bound to `demoParsed args`, with the given other sources. The
conversions stand in for package `cast` on the usual spellings: `true` and its
variants, decimal integers, a decimal number of nanoseconds. -/
def demoViper (args : List (String × FlagValue)) (env : String → Option String) : Viper :=
  { flags := demoParsed args
    env := env
    toBool := fun s => ["1", "t", "T", "TRUE", "true", "True"].contains s
    toDuration := fun s => s.toInt?.getD 0
    toInt := fun s => s.toInt?.getD 0 }

/-- No other source holds any key: no environment variable set, no configuration
file. -/
def noEnv : String → Option String := fun _ => none

/-- An environment that names an index table for the archive and a datasource for the
primary namespace. -/
def demoEnv : String → Option String := fun key =>
  if key = "clickhouse-archive.index-table" then some "jaeger_index_v2"
  else if key = "clickhouse.datasource" then some "tcp://clickhouse:9000"
  else none

/-! ## Lemmas on the tag projection -/

theorem mem_mapSet (m : List String) (k s : String) :
    s ∈ mapSet m k ↔ s ∈ m ∨ s = k := by
  unfold mapSet
  split
  · constructor
    · intro h; exact Or.inl h
    · rintro (h | h)
      · exact h
      · subst h; assumption
  · simp

theorem nodup_mapSet (m : List String) (k : String) (h : m.Nodup) :
    (mapSet m k).Nodup := by
  unfold mapSet
  split
  · exact h
  · rename_i hk
    rw [List.nodup_append]
    refine ⟨h, List.nodup_singleton k, ?_⟩
    intro a ha hb
    simp at hb
    subst hb
    exact hk ha

theorem mem_foldl_mapSet {α : Type} (f : α → String) (l : List α) (m : List String)
    (s : String) :
    s ∈ l.foldl (fun m a => mapSet m (f a)) m ↔ s ∈ m ∨ ∃ a ∈ l, s = f a := by
  induction l generalizing m with
  | nil => simp
  | cons a l ih =>
    simp only [List.foldl_cons, ih, mem_mapSet, List.mem_cons]
    constructor
    · rintro ((h | h) | ⟨b, hb, h⟩)
      · exact Or.inl h
      · exact Or.inr ⟨a, Or.inl rfl, h⟩
      · exact Or.inr ⟨b, Or.inr hb, h⟩
    · rintro (h | ⟨b, hb | hb, h⟩)
      · exact Or.inl (Or.inl h)
      · subst hb; exact Or.inl (Or.inr h)
      · exact Or.inr ⟨b, hb, h⟩

theorem nodup_foldl_mapSet {α : Type} (f : α → String) (l : List α) (m : List String)
    (h : m.Nodup) : (l.foldl (fun m a => mapSet m (f a)) m).Nodup := by
  induction l generalizing m with
  | nil => simpa using h
  | cons a l ih => exact ih _ (nodup_mapSet m (f a) h)

theorem mem_foldl_fields {V : Type} (d : Deps V) (logs : List (Log V)) (m : List String)
    (s : String) :
    s ∈ logs.foldl
        (fun m event => event.Fields.foldl (fun m kv => mapSet m (tagString d kv)) m) m ↔
      s ∈ m ∨ ∃ event ∈ logs, ∃ kv ∈ event.Fields, s = tagString d kv := by
  induction logs generalizing m with
  | nil => simp
  | cons e logs ih =>
    simp only [List.foldl_cons, ih, mem_foldl_mapSet, List.mem_cons]
    constructor
    · rintro ((h | ⟨kv, hkv, h⟩) | ⟨ev, hev, kv, hkv, h⟩)
      · exact Or.inl h
      · exact Or.inr ⟨e, Or.inl rfl, kv, hkv, h⟩
      · exact Or.inr ⟨ev, Or.inr hev, kv, hkv, h⟩
    · rintro (h | ⟨ev, hev | hev, kv, hkv, h⟩)
      · exact Or.inl (Or.inl h)
      · subst hev; exact Or.inl (Or.inr ⟨kv, hkv, h⟩)
      · exact Or.inr ⟨ev, hev, kv, hkv, h⟩

theorem nodup_foldl_fields {V : Type} (d : Deps V) (logs : List (Log V)) (m : List String)
    (h : m.Nodup) :
    (logs.foldl
        (fun m event => event.Fields.foldl (fun m kv => mapSet m (tagString d kv)) m)
        m).Nodup := by
  induction logs generalizing m with
  | nil => simpa using h
  | cons e logs ih => exact ih _ (nodup_foldl_mapSet _ _ _ h)

theorem foldl_snoc_eq (l acc : List String) :
    l.foldl (fun tags kv => tags ++ [kv]) acc = acc ++ l := by
  induction l generalizing acc with
  | nil => simp
  | cons a l ih => simp [ih]

theorem mem_sortStrings (l : List String) (s : String) : s ∈ sortStrings l ↔ s ∈ l :=
  (List.perm_insertionSort (· ≤ ·) l).mem_iff

theorem sortStrings_strict (l : List String) (h : l.Nodup) :
    List.Sorted (· < ·) (sortStrings l) := by
  have hs : List.Sorted (· ≤ ·) (sortStrings l) := List.sorted_insertionSort (· ≤ ·) l
  have hn : (sortStrings l).Nodup := (List.perm_insertionSort (· ≤ ·) l).nodup_iff.mpr h
  exact hs.lt_of_le hn

/-- The sorted output does not depend on the order in which the map is ranged over. -/
theorem sortStrings_perm (l₁ l₂ : List String) (h : l₁.Perm l₂) :
    sortStrings l₁ = sortStrings l₂ := by
  apply List.eq_of_perm_of_sorted (r := (· ≤ ·))
  · exact ((List.perm_insertionSort _ l₁).trans h).trans (List.perm_insertionSort _ l₂).symm
  · exact List.sorted_insertionSort _ _
  · exact List.sorted_insertionSort _ _

theorem mem_uniqueTagsForSpan {V : Type} (d : Deps V) (span : Span V) (s : String) :
    s ∈ uniqueTagsForSpan d span ↔
      ∃ kv, (kv ∈ span.Tags ∨ kv ∈ span.Process.Tags ∨ ∃ event ∈ span.Logs, kv ∈ event.Fields) ∧
        s = kv.Key ++ "=" ++ d.AsString kv := by
  unfold uniqueTagsForSpan
  simp only [mem_sortStrings, foldl_snoc_eq, List.nil_append]
  rw [mem_foldl_fields, mem_foldl_mapSet, mem_foldl_mapSet]
  simp only [List.not_mem_nil, false_or, tagString]
  constructor
  · rintro ((⟨kv, hkv, h⟩ | ⟨kv, hkv, h⟩) | ⟨ev, hev, kv, hkv, h⟩)
    · exact ⟨kv, Or.inl hkv, h⟩
    · exact ⟨kv, Or.inr (Or.inl hkv), h⟩
    · exact ⟨kv, Or.inr (Or.inr ⟨ev, hev, hkv⟩), h⟩
  · rintro ⟨kv, hkv | hkv | ⟨ev, hev, hkv⟩, h⟩
    · exact Or.inl (Or.inl ⟨kv, hkv, h⟩)
    · exact Or.inl (Or.inr ⟨kv, hkv, h⟩)
    · exact Or.inr ⟨ev, hev, kv, hkv, h⟩

theorem sorted_uniqueTagsForSpan {V : Type} (d : Deps V) (span : Span V) :
    List.Sorted (· < ·) (uniqueTagsForSpan d span) := by
  unfold uniqueTagsForSpan
  simp only [foldl_snoc_eq, List.nil_append]
  apply sortStrings_strict
  apply nodup_foldl_fields
  apply nodup_foldl_mapSet
  apply nodup_foldl_mapSet
  exact List.nodup_nil

theorem append_eq_inj (a b c : String) (h : a ++ "=" ++ b = a ++ "=" ++ c) : b = c := by
  have h1 : (a ++ "=" ++ b).data = (a ++ "=" ++ c).data := by rw [h]
  simp only [String.data_append, List.append_cancel_left_eq] at h1
  exact String.ext h1

/-! ## Tag projection: the contract -/

/-- C1. The output of `uniqueTagsForSpan` is strictly ascending (so it has no
duplicates), its elements are exactly the strings `key ++ "=" ++ AsString value`
over the span's tags, the process's tags and the fields of the log events; two tags
with one key and different renderings both appear, as different elements; and a span
without any tag gives the empty list. -/
theorem uniqueTagsForSpan_contract {V : Type} (d : Deps V) (span : Span V) :
    List.Sorted (· < ·) (uniqueTagsForSpan d span) ∧
    (uniqueTagsForSpan d span).Nodup ∧
    (∀ s, s ∈ uniqueTagsForSpan d span ↔
      ∃ kv, (kv ∈ span.Tags ∨ kv ∈ span.Process.Tags ∨
          ∃ event ∈ span.Logs, kv ∈ event.Fields) ∧
        s = kv.Key ++ "=" ++ d.AsString kv) ∧
    (∀ kv₁ kv₂ : KeyValue V,
      (kv₁ ∈ span.Tags ∨ kv₁ ∈ span.Process.Tags ∨ ∃ event ∈ span.Logs, kv₁ ∈ event.Fields) →
      (kv₂ ∈ span.Tags ∨ kv₂ ∈ span.Process.Tags ∨ ∃ event ∈ span.Logs, kv₂ ∈ event.Fields) →
      kv₁.Key = kv₂.Key → d.AsString kv₁ ≠ d.AsString kv₂ →
      kv₁.Key ++ "=" ++ d.AsString kv₁ ∈ uniqueTagsForSpan d span ∧
      kv₂.Key ++ "=" ++ d.AsString kv₂ ∈ uniqueTagsForSpan d span ∧
      kv₁.Key ++ "=" ++ d.AsString kv₁ ≠ kv₂.Key ++ "=" ++ d.AsString kv₂) ∧
    (span.Tags = [] → span.Process.Tags = [] → (∀ event ∈ span.Logs, event.Fields = []) →
      uniqueTagsForSpan d span = []) := by
  refine ⟨sorted_uniqueTagsForSpan d span, ?_, mem_uniqueTagsForSpan d span, ?_, ?_⟩
  · exact (sorted_uniqueTagsForSpan d span).nodup
  · intro kv₁ kv₂ h₁ h₂ hk hv
    refine ⟨(mem_uniqueTagsForSpan d span _).mpr ⟨kv₁, h₁, rfl⟩,
      (mem_uniqueTagsForSpan d span _).mpr ⟨kv₂, h₂, rfl⟩, ?_⟩
    intro h
    rw [hk] at h
    exact hv (append_eq_inj _ _ _ h)
  · intro ht hp hl
    apply List.eq_nil_iff_forall_not_mem.mpr
    intro s hs
    obtain ⟨kv, hkv, -⟩ := (mem_uniqueTagsForSpan d span s).mp hs
    rcases hkv with h | h | ⟨event, hev, h⟩
    · rw [ht] at h; exact List.not_mem_nil _ h
    · rw [hp] at h; exact List.not_mem_nil _ h
    · rw [hl event hev] at h; exact List.not_mem_nil _ h

/-- C1 at a span tagged `k=2`, `k=10`, `k=2`: both renderings of `k` are kept. -/
theorem uniqueTagsForSpan_contract_witness :
    "k=2" ∈ uniqueTagsForSpan demoDeps (demoSpan [⟨"k", "2"⟩, ⟨"k", "10"⟩, ⟨"k", "2"⟩]) ∧
    "k=10" ∈ uniqueTagsForSpan demoDeps (demoSpan [⟨"k", "2"⟩, ⟨"k", "10"⟩, ⟨"k", "2"⟩]) ∧
    ("k=2" : String) ≠ "k=10" ∧
    uniqueTagsForSpan demoDeps (demoSpan []) = [] :=
  have h := uniqueTagsForSpan_contract demoDeps
    (demoSpan [⟨"k", "2"⟩, ⟨"k", "10"⟩, ⟨"k", "2"⟩])
  have h2 := h.2.2.2.1 ⟨"k", "2"⟩ ⟨"k", "10"⟩
    (Or.inl (by simp [demoSpan])) (Or.inl (by simp [demoSpan])) rfl (by decide)
  ⟨h2.1, h2.2.1, h2.2.2,
    (uniqueTagsForSpan_contract demoDeps (demoSpan [])).2.2.2.2 rfl rfl
      (by intro event hev; simp [demoSpan] at hev)⟩

/-- The same span evaluated: `k=10` sorts before `k=2`. -/
theorem uniqueTagsForSpan_example :
    uniqueTagsForSpan demoDeps (demoSpan [⟨"k", "2"⟩, ⟨"k", "10"⟩, ⟨"k", "2"⟩]) =
      ["k=10", "k=2"] := by
  simp [uniqueTagsForSpan, demoSpan, demoDeps, tagString, mapSet, sortStrings]
  decide

/-! ## Batch persistence -/

theorem execModelRows_log {V : Type} (d : Deps V) (w : SpanWriter) (db : Db)
    (batch : List (Span V)) (log : List DbOp) :
    log <+: (execModelRows d w db batch log).2 ∧
    (execModelRows d w db batch log).2.count .begin = log.count .begin := by
  induction batch generalizing log with
  | nil => simp [execModelRows]
  | cons span rest ih =>
    unfold execModelRows
    split
    · simp
    · dsimp only
      split
      · simp
      · rename_i serialized _ _ _
        have h := ih (log ++ [DbOp.exec [.time span.StartTime,
          .text (d.TraceIDString span.TraceID), .blob serialized]])
        refine ⟨(List.prefix_append _ _).trans h.1, ?_⟩
        rw [h.2]
        simp

/-- The calls of `writeModelBatch` extend the history and begin one transaction. -/
theorem writeModelBatch_log {V : Type} (d : Deps V) (w : SpanWriter) (db : Db)
    (log : List DbOp) (batch : List (Span V)) :
    log <+: (writeModelBatch d w db log batch).2 ∧
    (writeModelBatch d w db log batch).2.count .begin = log.count .begin + 1 := by
  unfold writeModelBatch
  split
  · simp
  · dsimp only
    split
    · simp
    · have h := execModelRows_log d w db batch (log ++ [.begin] ++ [.prepare
        ("INSERT INTO " ++ w.spansTable ++ " (timestamp, traceID, model) VALUES (?, ?, ?)")])
      split
      · rename_i err log' heq
        rw [heq] at h
        refine ⟨(((List.prefix_append _ _).trans (List.prefix_append _ _)).trans h.1).trans
          (List.prefix_append _ _), ?_⟩
        have h2 := h.2
        simp at h2
        simp [h2]
      · rename_i log' heq
        rw [heq] at h
        refine ⟨(((List.prefix_append _ _).trans (List.prefix_append _ _)).trans h.1).trans
          (List.prefix_append _ _), ?_⟩
        have h2 := h.2
        simp at h2
        simp [h2]

/-- When the primary write returns an error, `writeBatch` returns it and makes no
further call. -/
theorem writeBatch_of_model_error {V : Type} (d : Deps V) (w : SpanWriter) (db : Db)
    (log : List DbOp) (batch : List (Span V)) (err : Err)
    (h : (writeModelBatch d w db log batch).1 = some err) :
    writeBatch d w db log batch = (some err, (writeModelBatch d w db log batch).2) := by
  unfold writeBatch
  split
  · rename_i e l heq
    rw [heq] at h ⊢
    simp at h
    simp [h]
  · rename_i l heq
    rw [heq] at h
    simp at h

/-- When the primary write returns `nil`, `writeBatch` goes on from its history:
to the index write if the index table is named, to `return nil` otherwise. -/
theorem writeBatch_of_model_ok {V : Type} (d : Deps V) (w : SpanWriter) (db : Db)
    (log : List DbOp) (batch : List (Span V))
    (h : (writeModelBatch d w db log batch).1 = none) :
    writeBatch d w db log batch =
      if w.indexTable ≠ "" then
        writeIndexBatch d w db (writeModelBatch d w db log batch).2 batch
      else (none, (writeModelBatch d w db log batch).2) := by
  unfold writeBatch
  split
  · rename_i e l heq
    rw [heq] at h
    simp at h
  · rename_i l heq
    rw [heq]
    split
    · dsimp only
      split <;> rename_i h2 <;> rw [h2]
    · rfl

/-- C3, the defect. When preparing the insert into the spans table fails,
`writeModelBatch` rolls back and returns `nil`; `writeBatch` then writes the index
rows of the batch and returns `nil` as well, although no span was stored. -/
theorem writeBatch_prepare_failure_not_reported :
    writeModelBatch demoDeps (demoWriter 3 1000) dbPrepareFails [] [demoSpan []] =
      (none, [.begin,
        .prepare "INSERT INTO jaeger_spans_v2 (timestamp, traceID, model) VALUES (?, ?, ?)",
        .rollback]) ∧
    writeBatch demoDeps (demoWriter 3 1000) dbPrepareFails [] [demoSpan []] =
      (none, [.begin,
        .prepare "INSERT INTO jaeger_spans_v2 (timestamp, traceID, model) VALUES (?, ?, ?)",
        .rollback,
        .begin,
        .prepare ("INSERT INTO jaeger_index_v2 (timestamp, traceID, service, operation, " ++
          "durationUs, tags) VALUES (?, ?, ?, ?, ?, ?)"),
        .exec [.time 0, .text "0000000000000001", .text "svc", .text "op", .int 1,
          .texts []],
        .commit, .stmtClose]) := by
  constructor <;> decide

/-- C7. With an empty index table name `writeBatch` is `writeModelBatch`: same
result, same calls on the database, one transaction begun and none for an index.
With an index table named and a primary write returning `nil`, `writeBatch` is
`writeIndexBatch` run once after the primary write, and returns its result. -/
theorem writeBatch_index_table {V : Type} (d : Deps V) (w : SpanWriter) (db : Db)
    (log : List DbOp) (batch : List (Span V)) :
    (w.indexTable = "" →
      writeBatch d w db log batch = writeModelBatch d w db log batch ∧
      log <+: (writeBatch d w db log batch).2 ∧
      (writeBatch d w db log batch).2.count .begin = log.count .begin + 1) ∧
    (w.indexTable ≠ "" → (writeModelBatch d w db log batch).1 = none →
      writeBatch d w db log batch =
        writeIndexBatch d w db (writeModelBatch d w db log batch).2 batch) := by
  constructor
  · intro hw
    have heq : writeBatch d w db log batch = writeModelBatch d w db log batch := by
      cases h : (writeModelBatch d w db log batch).1 with
      | some err => rw [writeBatch_of_model_error d w db log batch err h, ← h]
      | none => rw [writeBatch_of_model_ok d w db log batch h, ← h]; simp [hw]
    rw [heq]
    exact ⟨rfl, writeModelBatch_log d w db log batch⟩
  · intro hw h
    rw [writeBatch_of_model_ok d w db log batch h]
    simp [hw]

/-- C7 at an archive writer (no index table) and at a writer with an index table, on
a database where every call succeeds. -/
theorem writeBatch_index_table_witness :
    (writeBatch demoDeps { demoWriter 3 1000 with indexTable := "" } dbOk [] [demoSpan []] =
      writeModelBatch demoDeps { demoWriter 3 1000 with indexTable := "" } dbOk []
        [demoSpan []]) ∧
    writeBatch demoDeps (demoWriter 3 1000) dbOk [] [demoSpan []] =
      writeIndexBatch demoDeps (demoWriter 3 1000) dbOk
        (writeModelBatch demoDeps (demoWriter 3 1000) dbOk [] [demoSpan []]).2
        [demoSpan []] :=
  ⟨((writeBatch_index_table demoDeps { demoWriter 3 1000 with indexTable := "" } dbOk []
      [demoSpan []]).1 rfl).1,
   (writeBatch_index_table demoDeps (demoWriter 3 1000) dbOk [] [demoSpan []]).2
      (by decide) (by decide)⟩

/-! ## Flush scheduling -/

theorem runFrom_nil {V : Type} (d : Deps V) (w : SpanWriter) (db : Db) (st : Loop V) :
    runFrom d w db st [] = st := rfl

theorem runFrom_cons {V : Type} (d : Deps V) (w : SpanWriter) (db : Db) (st : Loop V)
    (it : Iter V) (its : List (Iter V)) :
    runFrom d w db st (it :: its) =
      runFrom d w db (if st.stopped then st else iterate d w db st it) its := rfl

theorem runFrom_append {V : Type} (d : Deps V) (w : SpanWriter) (db : Db) (st : Loop V)
    (its its' : List (Iter V)) :
    runFrom d w db st (its ++ its') = runFrom d w db (runFrom d w db st its) its' := by
  unfold runFrom
  rw [List.foldl_append]

theorem runFrom_stopped {V : Type} (d : Deps V) (w : SpanWriter) (db : Db) (st : Loop V)
    (its : List (Iter V)) (h : st.stopped = true) : runFrom d w db st its = st := by
  induction its with
  | nil => rfl
  | cons it its ih => rw [runFrom_cons, if_pos h, ih]

/-- The scheduling part of an iteration does not depend on the database. -/
theorem iterate_sched {V : Type} (d : Deps V) (w : SpanWriter) (db₁ db₂ : Db)
    (a b : Loop V) (it : Iter V) (h : a.sched = b.sched) :
    (iterate d w db₁ a it).sched = (iterate d w db₂ b it).sched := by
  obtain ⟨ab, ad, al, as, alog, ae, af⟩ := a
  obtain ⟨bb, bd, bl, bs, blog, be, bf⟩ := b
  simp only [Loop.sched, Prod.mk.injEq] at h
  obtain ⟨rfl, rfl, rfl, rfl, rfl⟩ := h
  cases it with
  | mk ev now =>
    cases ev <;> simp only [iterate, selectCase, flushBatch, Loop.sched] <;> split <;> rfl

theorem runFrom_sched {V : Type} (d : Deps V) (w : SpanWriter) (db₁ db₂ : Db)
    (its : List (Iter V)) (a b : Loop V) (h : a.sched = b.sched) :
    (runFrom d w db₁ a its).sched = (runFrom d w db₂ b its).sched := by
  induction its generalizing a b with
  | nil => exact h
  | cons it its ih =>
    rw [runFrom_cons, runFrom_cons]
    apply ih
    have hs : a.stopped = b.stopped := by
      simp only [Loop.sched, Prod.mk.injEq] at h
      exact h.2.2.2.1
    rw [hs]
    split
    · exact h
    · exact iterate_sched d w db₁ db₂ a b it h

/-- What an iteration that flushes leaves behind. -/
theorem iterate_of_flush {V : Type} (d : Deps V) (w : SpanWriter) (db : Db) (st : Loop V)
    (it : Iter V) (h : (selectCase d w st it.event).flush = true) :
    (iterate d w db st it).batch = Slice.make w.size ∧
    (iterate d w db st it).last = it.now ∧
    (iterate d w db st it).flushed =
      st.flushed ++ [(selectCase d w st it.event).loop.batch.elems] ∧
    (iterate d w db st it).stopped = (selectCase d w st it.event).finish ∧
    (iterate d w db st it).log =
      (writeBatch d w db st.log (selectCase d w st it.event).loop.batch.elems).2 := by
  unfold iterate
  simp only [h, if_true, flushBatch]
  cases it with
  | mk ev now => cases ev <;> simp [selectCase]

/-- What an iteration that does not flush leaves behind. -/
theorem iterate_of_no_flush {V : Type} (d : Deps V) (w : SpanWriter) (db : Db) (st : Loop V)
    (it : Iter V) (h : (selectCase d w st it.event).flush = false) :
    iterate d w db st it =
      { (selectCase d w st it.event).loop with
        stopped := (selectCase d w st it.event).finish } := by
  unfold iterate
  simp [h]

/-- Conservation over one iteration: the flushed batches followed by the buffer grow
by the span received, if any. -/
theorem iterate_content {V : Type} (d : Deps V) (w : SpanWriter) (db : Db) (st : Loop V)
    (it : Iter V) :
    (iterate d w db st it).flushed.flatten ++ (iterate d w db st it).batch.elems =
      st.flushed.flatten ++ st.batch.elems ++
        (match it.event with
          | .span s => [s]
          | _ => []) := by
  cases it with
  | mk ev now =>
    cases ev <;> simp only [iterate, selectCase, flushBatch] <;> split <;>
      simp [Slice.append, Slice.make] <;> split <;> simp

theorem iterate_stopped {V : Type} (d : Deps V) (w : SpanWriter) (db : Db) (st : Loop V)
    (it : Iter V) :
    (iterate d w db st it).stopped =
      (match it.event with
        | .finish => true
        | _ => false) := by
  cases it with
  | mk ev now => cases ev <;> rfl

theorem runFrom_content {V : Type} (d : Deps V) (w : SpanWriter) (db : Db)
    (its : List (Iter V)) (st : Loop V) (h : st.stopped = false) :
    (runFrom d w db st its).flushed.flatten ++ (runFrom d w db st its).batch.elems =
      st.flushed.flatten ++ st.batch.elems ++ arrivals its := by
  induction its generalizing st with
  | nil => simp [runFrom_nil, arrivals]
  | cons it its ih =>
    rw [runFrom_cons, h]
    simp only [Bool.false_eq_true, if_false]
    have hc := iterate_content d w db st it
    have hs := iterate_stopped d w db st it
    cases hev : it.event with
    | span s =>
      rw [hev] at hc hs
      rw [ih _ hs, hc]
      simp [arrivals, hev]
    | timer rearm since =>
      rw [hev] at hc hs
      rw [ih _ hs, hc]
      simp [arrivals, hev]
    | finish =>
      rw [hev] at hc hs
      rw [runFrom_stopped d w db _ its hs, hc]
      simp [arrivals, hev]

theorem selectCase_span_bound {V : Type} (d : Deps V) (w : SpanWriter) (st : Loop V)
    (s : Span V) (hc : st.batch.cap = w.size) (hl : st.batch.elems.length < w.size) :
    (selectCase d w st (.span s)).loop.batch.cap = w.size ∧
    (selectCase d w st (.span s)).loop.batch.elems = st.batch.elems ++ [s] ∧
    (selectCase d w st (.span s)).loop.batch.elems.length ≤ w.size ∧
    ((selectCase d w st (.span s)).flush = true ↔
      (selectCase d w st (.span s)).loop.batch.elems.length = w.size) := by
  have hlt : st.batch.elems.length < st.batch.cap := by rw [hc]; exact hl
  have ha : st.batch.append d s = ⟨st.batch.elems ++ [s], w.size⟩ := by
    unfold Slice.append
    rw [if_pos hlt, hc]
  simp only [selectCase, ha, List.length_append, List.length_singleton, beq_iff_eq]
  exact ⟨trivial, trivial, hl, trivial⟩

theorem iterate_bound {V : Type} (d : Deps V) (w : SpanWriter) (db : Db) (st : Loop V)
    (it : Iter V) (h0 : 0 < w.size) (hc : st.batch.cap = w.size)
    (hl : st.batch.elems.length < w.size) :
    (iterate d w db st it).batch.cap = w.size ∧
    (iterate d w db st it).batch.elems.length < w.size := by
  cases hf : (selectCase d w st it.event).flush with
  | true =>
    rw [(iterate_of_flush d w db st it hf).1]
    exact ⟨rfl, h0⟩
  | false =>
    rw [iterate_of_no_flush d w db st it hf]
    cases it with
    | mk ev now =>
      cases ev with
      | span s =>
        have hb := selectCase_span_bound d w st s hc hl
        refine ⟨hb.1, lt_of_le_of_ne hb.2.2.1 ?_⟩
        intro he
        have := hb.2.2.2.mpr he
        rw [this] at hf
        exact Bool.noConfusion hf
      | timer rearm since => exact ⟨hc, hl⟩
      | finish => exact ⟨hc, hl⟩

theorem runFrom_bound {V : Type} (d : Deps V) (w : SpanWriter) (db : Db)
    (its : List (Iter V)) (st : Loop V) (h0 : 0 < w.size) (hc : st.batch.cap = w.size)
    (hl : st.batch.elems.length < w.size) :
    (runFrom d w db st its).batch.cap = w.size ∧
    (runFrom d w db st its).batch.elems.length < w.size := by
  induction its generalizing st with
  | nil => exact ⟨hc, hl⟩
  | cons it its ih =>
    rw [runFrom_cons]
    split
    · exact ih st hc hl
    · exact ih _ (iterate_bound d w db st it h0 hc hl).1 (iterate_bound d w db st it h0 hc hl).2

/-- C4, as amended. With a size threshold of at least 1, after any sequence of
iterations the buffer has the capacity of the threshold and holds fewer spans than
it; a span then received brings it to at most the threshold, and that iteration
flushes exactly when the length after the append equals the threshold. -/
theorem buffer_bounded_by_size {V : Type} (d : Deps V) (w : SpanWriter) (db : Db)
    (armed start : Int) (its : List (Iter V)) (h0 : 1 ≤ w.size) :
    (backgroundWriter d w db armed start its).batch.cap = w.size ∧
    (backgroundWriter d w db armed start its).batch.elems.length < w.size ∧
    ∀ s : Span V,
      (selectCase d w (backgroundWriter d w db armed start its)
        (.span s)).loop.batch.elems.length ≤ w.size ∧
      ((selectCase d w (backgroundWriter d w db armed start its) (.span s)).flush = true ↔
        (selectCase d w (backgroundWriter d w db armed start its)
          (.span s)).loop.batch.elems.length = w.size) := by
  have hb := runFrom_bound d w db its (Loop.init w armed start) h0 rfl h0
  refine ⟨hb.1, hb.2, fun s => ?_⟩
  have hs := selectCase_span_bound d w _ s hb.1 hb.2
  exact ⟨hs.2.2.1, hs.2.2.2⟩

/-- C4 as amended, at threshold 3 after two spans: the third span fills the buffer and
is flushed with the other two. -/
theorem buffer_bounded_by_size_witness :
    (backgroundWriter demoDeps (demoWriter 3 1000) dbOk 0 0
      [⟨.span (demoSpan []), 1⟩, ⟨.span (demoSpan []), 2⟩]).batch.elems.length < 3 ∧
    (selectCase demoDeps (demoWriter 3 1000)
      (backgroundWriter demoDeps (demoWriter 3 1000) dbOk 0 0
        [⟨.span (demoSpan []), 1⟩, ⟨.span (demoSpan []), 2⟩])
      (.span (demoSpan []))).flush = true :=
  have h := buffer_bounded_by_size demoDeps (demoWriter 3 1000) dbOk 0 0
    [⟨.span (demoSpan []), 1⟩, ⟨.span (demoSpan []), 2⟩] (by decide)
  ⟨h.2.1, (h.2.2 (demoSpan [])).2.mpr (by decide)⟩

/-- A span received makes the buffer one span longer, whatever its capacity and
whatever the runtime does on reallocation. -/
theorem selectCase_span_length {V : Type} (d : Deps V) (w : SpanWriter) (st : Loop V)
    (s : Span V) :
    (selectCase d w st (.span s)).loop.batch.elems.length = st.batch.elems.length + 1 := by
  simp only [selectCase, Slice.append]
  split <;> simp

/-- C4 as stated fails at threshold 0: the first span received makes a buffer of one
span, more than the threshold. This does not depend on the capacity the runtime gives
the reallocated slice: it is so with capacity 1 and with capacity 4. -/
theorem buffer_bound_fails_at_size_zero :
    (demoWriter 0 1000).size = 0 ∧
    (selectCase demoDeps (demoWriter 0 1000) (backgroundWriter demoDeps (demoWriter 0 1000)
      dbOk 0 0 []) (.span (demoSpan []))).loop.batch.elems.length = 1 ∧
    (selectCase (growDeps (fun _ => 4)) (demoWriter 0 1000)
      (backgroundWriter (growDeps (fun _ => 4)) (demoWriter 0 1000) dbOk 0 0 [])
      (.span (demoSpan []))).loop.batch.elems.length = 1 := by
  decide

/-- C5. A timer expiry flushes exactly when the buffer is not empty and the time since
`last` is strictly greater than the delay; it then hands the buffer to `writeBatch`,
and otherwise leaves the buffer, `last`, the flushed batches and the database
untouched. -/
theorem timer_expiry_flush {V : Type} (d : Deps V) (w : SpanWriter) (db : Db) (st : Loop V)
    (rearm since now : Int) :
    ((selectCase d w st (.timer rearm since)).flush = true ↔
      (st.batch.elems ≠ [] ∧ since - st.last > w.delay)) ∧
    ((st.batch.elems ≠ [] ∧ since - st.last > w.delay) →
      (iterate d w db st ⟨.timer rearm since, now⟩).flushed = st.flushed ++ [st.batch.elems] ∧
      (iterate d w db st ⟨.timer rearm since, now⟩).batch = Slice.make w.size ∧
      (iterate d w db st ⟨.timer rearm since, now⟩).last = now) ∧
    (¬ (st.batch.elems ≠ [] ∧ since - st.last > w.delay) →
      (iterate d w db st ⟨.timer rearm since, now⟩).batch = st.batch ∧
      (iterate d w db st ⟨.timer rearm since, now⟩).last = st.last ∧
      (iterate d w db st ⟨.timer rearm since, now⟩).flushed = st.flushed ∧
      (iterate d w db st ⟨.timer rearm since, now⟩).log = st.log ∧
      (iterate d w db st ⟨.timer rearm since, now⟩).errors = st.errors) := by
  have hiff : (selectCase d w st (.timer rearm since)).flush = true ↔
      (st.batch.elems ≠ [] ∧ since - st.last > w.delay) := by
    simp only [selectCase, Bool.and_eq_true, decide_eq_true_eq, List.length_pos]
    exact And.comm
  refine ⟨hiff, ?_, ?_⟩
  · intro h
    have hf := iterate_of_flush d w db st ⟨.timer rearm since, now⟩ (hiff.mpr h)
    exact ⟨hf.2.2.1, hf.1, hf.2.1⟩
  · intro h
    have hf : (selectCase d w st (Iter.mk (.timer rearm since) now).event).flush = false := by
      cases hb : (selectCase d w st (.timer rearm since)).flush with
      | true => exact absurd (hiff.mp hb) h
      | false => rfl
    rw [iterate_of_no_flush d w db st _ hf]
    simp [selectCase]

/-- C5 on a buffer of one span, 50ms delay: an expiry 60ms after `last` flushes, an
expiry 50ms after `last` leaves the buffer as it is. -/
theorem timer_expiry_flush_witness :
    (iterate demoDeps (demoWriter 100 50000000) dbOk
      (backgroundWriter demoDeps (demoWriter 100 50000000) dbOk 0 0 [⟨.span (demoSpan []), 1⟩])
      ⟨.timer 60000000 60000000, 60000100⟩).flushed = [[demoSpan []]] ∧
    (iterate demoDeps (demoWriter 100 50000000) dbOk
      (backgroundWriter demoDeps (demoWriter 100 50000000) dbOk 0 0 [⟨.span (demoSpan []), 1⟩])
      ⟨.timer 50000000 50000000, 50000100⟩).batch.elems = [demoSpan []] :=
  ⟨((timer_expiry_flush demoDeps (demoWriter 100 50000000) dbOk
      (backgroundWriter demoDeps (demoWriter 100 50000000) dbOk 0 0 [⟨.span (demoSpan []), 1⟩])
      60000000 60000000 60000100).2.1 (by decide)).1,
   congrArg Slice.elems ((timer_expiry_flush demoDeps (demoWriter 100 50000000) dbOk
      (backgroundWriter demoDeps (demoWriter 100 50000000) dbOk 0 0 [⟨.span (demoSpan []), 1⟩])
      50000000 50000000 50000100).2.2 (by decide)).1⟩

/-- C6. The scheduling state after an iteration is the same for any two behaviours of
the database, so whether `writeBatch` failed or not; when the iteration flushes, the
buffer afterwards is a fresh empty one of capacity `size`, `last` is the new clock
reading, the batch is recorded as flushed once and kept nowhere else, the loop stops
only on the finish case, and an error returned by `writeBatch` is logged. All later
iterations then also schedule alike. -/
theorem flush_state_independent_of_error {V : Type} (d : Deps V) (w : SpanWriter)
    (db₁ db₂ : Db) (st : Loop V) (it : Iter V) :
    (iterate d w db₁ st it).sched = (iterate d w db₂ st it).sched ∧
    ((selectCase d w st it.event).flush = true →
      (iterate d w db₁ st it).batch = Slice.make w.size ∧
      (iterate d w db₁ st it).batch.elems = [] ∧
      (iterate d w db₁ st it).batch.cap = w.size ∧
      (iterate d w db₁ st it).last = it.now ∧
      (iterate d w db₁ st it).flushed =
        st.flushed ++ [(selectCase d w st it.event).loop.batch.elems] ∧
      (iterate d w db₁ st it).stopped = (selectCase d w st it.event).finish ∧
      (∀ err, (writeBatch d w db₁ st.log (selectCase d w st it.event).loop.batch.elems).1 =
          some err → (iterate d w db₁ st it).errors = st.errors ++ [err])) ∧
    ((iterate d w db₁ st it).stopped = true ↔ (selectCase d w st it.event).finish = true) ∧
    (∀ its : List (Iter V),
      (runFrom d w db₁ (iterate d w db₁ st it) its).sched =
        (runFrom d w db₂ (iterate d w db₂ st it) its).sched) := by
  refine ⟨iterate_sched d w db₁ db₂ st st it rfl, ?_, ?_, ?_⟩
  · intro h
    have hf := iterate_of_flush d w db₁ st it h
    refine ⟨hf.1, by rw [hf.1]; rfl, by rw [hf.1]; rfl, hf.2.1, hf.2.2.1, hf.2.2.2.1, ?_⟩
    intro err herr
    unfold iterate
    simp only [h, if_true, flushBatch]
    cases it with
    | mk ev now =>
      cases ev <;> simp only [selectCase] at herr ⊢ <;> rw [herr]
  · unfold iterate
    simp
  · intro its
    exact runFrom_sched d w db₁ db₂ its _ _ (iterate_sched d w db₁ db₂ st st it rfl)

/-- C6 at threshold 1: the span received is flushed; with a database whose `Begin`
fails `writeBatch` returns an error, and the loop is left as with a database on which
all succeeds: empty buffer, still running. -/
theorem flush_state_independent_of_error_witness :
    (writeBatch demoDeps (demoWriter 1 1000) dbBeginFails [] [demoSpan []]).1 =
      some (.external "connection refused") ∧
    (writeBatch demoDeps (demoWriter 1 1000) dbOk [] [demoSpan []]).1 = none ∧
    (iterate demoDeps (demoWriter 1 1000) dbBeginFails (Loop.init (demoWriter 1 1000) 0 0)
      ⟨.span (demoSpan []), 7⟩).batch = Slice.make 1 ∧
    (iterate demoDeps (demoWriter 1 1000) dbBeginFails (Loop.init (demoWriter 1 1000) 0 0)
      ⟨.span (demoSpan []), 7⟩).stopped = false ∧
    (iterate demoDeps (demoWriter 1 1000) dbBeginFails (Loop.init (demoWriter 1 1000) 0 0)
      ⟨.span (demoSpan []), 7⟩).errors = [.external "connection refused"] :=
  have h := (flush_state_independent_of_error demoDeps (demoWriter 1 1000) dbBeginFails dbOk
    (Loop.init (demoWriter 1 1000) 0 0) ⟨.span (demoSpan []), 7⟩).2.1 (by decide)
  ⟨by decide, by decide, h.1, h.2.2.2.2.2.1, h.2.2.2.2.2.2 _ (by decide)⟩

/-- C8. After any sequence of iterations, the batches given to `writeBatch`, in flush
order, followed by the current buffer, are the spans received, in arrival order. -/
theorem flushed_batches_then_buffer_eq_arrivals {V : Type} (d : Deps V) (w : SpanWriter)
    (db : Db) (armed start : Int) (its : List (Iter V)) :
    (backgroundWriter d w db armed start its).flushed.flatten ++
        (backgroundWriter d w db armed start its).batch.elems =
      arrivals its := by
  have h := runFrom_content d w db its (Loop.init w armed start) rfl
  simpa [backgroundWriter, Loop.init, Slice.make] using h

/-- C10, as amended. With at least one and fewer than `size` spans received and
nothing flushed yet, a timer expiry handled strictly more than the delay after the
start flushes once, the batch being exactly the spans received, and empties the
buffer. -/
theorem timer_flushes_partial_buffer {V : Type} (d : Deps V) (w : SpanWriter) (db : Db)
    (armed start : Int) (spans : List (Span V)) (t rearm since now : Int)
    (h1 : spans ≠ []) (h2 : spans.length < w.size) (h3 : since - start > w.delay) :
    (backgroundWriter d w db armed start
      (spans.map (fun s => ⟨.span s, t⟩) ++ [⟨.timer rearm since, now⟩])).flushed = [spans] ∧
    (backgroundWriter d w db armed start
      (spans.map (fun s => ⟨.span s, t⟩) ++ [⟨.timer rearm since, now⟩])).batch.elems = [] ∧
    (backgroundWriter d w db armed start
      (spans.map (fun s => ⟨.span s, t⟩) ++ [⟨.timer rearm since, now⟩])).stopped = false := by
  have key : ∀ (l : List (Span V)) (st : Loop V), st.stopped = false →
      st.batch.cap = w.size → st.batch.elems.length + l.length < w.size →
      runFrom d w db st (l.map (fun s => ⟨.span s, t⟩)) =
        { st with batch := ⟨st.batch.elems ++ l, w.size⟩ } := by
    intro l
    induction l with
    | nil =>
      intro st _ hc _
      cases st with
      | mk b dl la sp lg er fl => cases b; simp_all [runFrom_nil]
    | cons s l ih =>
      intro st hs hc hl
      simp only [List.length_cons] at hl
      have hb := selectCase_span_bound d w st s hc (by omega)
      have hnf : (selectCase d w st (Iter.mk (.span s) t).event).flush = false := by
        cases hf : (selectCase d w st (.span s)).flush with
        | true =>
          have := hb.2.2.2.mp hf
          rw [hb.2.1] at this
          simp at this
          omega
        | false => rfl
      rw [List.map_cons, runFrom_cons, hs]
      simp only [Bool.false_eq_true, if_false]
      rw [iterate_of_no_flush d w db st _ hnf, ih]
      · have he := hb.2.1
        simp only [selectCase] at he ⊢
        simp [he, hs]
      · rfl
      · exact hb.1
      · have he := hb.2.1
        simp only [selectCase] at he ⊢
        simp [he]
        omega
  have hrun := key spans (Loop.init w armed start) rfl rfl (by simpa [Loop.init, Slice.make] using h2)
  have hflush : (selectCase d w (runFrom d w db (Loop.init w armed start)
      (spans.map (fun s => ⟨.span s, t⟩))) (Iter.mk (.timer rearm since) now).event).flush
      = true := by
    rw [hrun]
    simp only [selectCase, Loop.init, Slice.make, List.nil_append, Bool.and_eq_true,
      decide_eq_true_eq, List.length_pos]
    exact ⟨h3, h1⟩
  have hf := iterate_of_flush d w db _ _ hflush
  unfold backgroundWriter
  rw [runFrom_append, runFrom_cons, runFrom_nil]
  have hst : (runFrom d w db (Loop.init w armed start)
      (spans.map (fun s => ⟨.span s, t⟩))).stopped = false := by rw [hrun]; rfl
  rw [hst]
  simp only [Bool.false_eq_true, if_false]
  refine ⟨?_, by rw [hf.1]; rfl, ?_⟩
  · rw [hf.2.2.1, hrun]
    simp [selectCase, Loop.init, Slice.make]
  · rw [hf.2.2.2.1]
    rfl

/-- C10 as amended, at the scenario of the specification: threshold 100, delay 50ms,
one span, timer handled 60ms after the start. -/
theorem timer_flushes_partial_buffer_witness :
    (backgroundWriter demoDeps (demoWriter 100 50000000) dbOk 0 0
      ([demoSpan []].map (fun s => ⟨.span s, 1000⟩) ++
        [⟨.timer 60000000 60000000, 60000100⟩])).flushed = [[demoSpan []]] :=
  (timer_flushes_partial_buffer demoDeps (demoWriter 100 50000000) dbOk 0 0 [demoSpan []]
    1000 60000000 60000000 60000100 (by decide) (by decide) (by decide)).1

/-- C10 as stated fails when the first expiry is handled no more than the delay after
`last`: threshold 100, delay 50ms, timer armed at 0 and `last` read 2µs later, one
span received, timer due at 50ms and handled at 50.0005ms, that is 49.9985ms after
`last`. Nothing is flushed and the span stays in the buffer. -/
theorem first_timer_expiry_without_flush :
    Event.timerDue (backgroundWriter demoDeps (demoWriter 100 50000000) dbOk 0 2000
      [⟨.span (demoSpan []), 1000000⟩]) (.timer 50000400 50000500 : Event String) = true ∧
    (backgroundWriter demoDeps (demoWriter 100 50000000) dbOk 0 2000
      [⟨.span (demoSpan []), 1000000⟩, ⟨.timer 50000400 50000500, 50000700⟩]).flushed = [] ∧
    (backgroundWriter demoDeps (demoWriter 100 50000000) dbOk 0 2000
      [⟨.span (demoSpan []), 1000000⟩, ⟨.timer 50000400 50000500, 50000700⟩]).batch.elems =
      [demoSpan []] := by
  decide

/-- C2, the defect. A span whose `WriteSpan` has returned is in the channel; `Close` is
then called and the `select` takes the finish case while the span case is ready too.
The buffer is empty, so nothing is flushed, the loop breaks and `Close` returns: the
span is still in the channel and in no batch. -/
theorem close_leaves_span_in_channel :
    (Sys.run demoDeps (demoWriter 3 1000) dbOk (Sys.init (demoWriter 3 1000) 0 0)
      [.writeSpan (demoSpan []), .close, .loop ⟨.finish, 10⟩]).map (fun sys => sys.closed)
      = some true ∧
    (Sys.run demoDeps (demoWriter 3 1000) dbOk (Sys.init (demoWriter 3 1000) 0 0)
      [.writeSpan (demoSpan []), .close, .loop ⟨.finish, 10⟩]).map
        (fun sys => sys.loop.stopped) = some true ∧
    (Sys.run demoDeps (demoWriter 3 1000) dbOk (Sys.init (demoWriter 3 1000) 0 0)
      [.writeSpan (demoSpan []), .close, .loop ⟨.finish, 10⟩]).map
        (fun sys => sys.loop.flushed) = some [] ∧
    (Sys.run demoDeps (demoWriter 3 1000) dbOk (Sys.init (demoWriter 3 1000) 0 0)
      [.writeSpan (demoSpan []), .close, .loop ⟨.finish, 10⟩]).map (fun sys => sys.chan)
      = some [demoSpan []] := by
  decide

/-! ## Factory -/

/-- C9. `connect` returns an error and leaves the connector uncalled exactly when the
encoding is neither `json` nor `protobuf`; with such a primary encoding `Initialize`
fails, stores no handle, and calls no connector. -/
theorem connect_unknown_encoding {R W : Type} (cfg : namespaceConfig)
    (calls : List NamespaceFields) (f : Factory R W) (logger : Logger) :
    (((Factory.connect cfg calls).1.2 ≠ none ∧ (Factory.connect cfg calls).2 = calls) ↔
      (cfg.Encoding ≠ "json" ∧ cfg.Encoding ≠ "protobuf")) ∧
    ((f.Options.getPrimary.Encoding ≠ "json" ∧ f.Options.getPrimary.Encoding ≠ "protobuf") →
      (f.Initialize logger calls).2.1 =
        .failed (.connectingPrimary (.unknownEncoding f.Options.getPrimary.Encoding)) ∧
      (f.Initialize logger calls).1.db = f.db ∧
      (f.Initialize logger calls).1.archive = f.archive ∧
      (f.Initialize logger calls).2.2 = calls) := by
  constructor
  · unfold Factory.connect
    by_cases h : cfg.Encoding ≠ EncodingJSON ∧ cfg.Encoding ≠ EncodingProto
    · rw [if_pos h]
      simpa [EncodingJSON, EncodingProto] using h
    · rw [if_neg h]
      have h' : ¬ (cfg.Encoding ≠ "json" ∧ cfg.Encoding ≠ "protobuf") := h
      simp only [h', iff_false, not_and]
      intro _ hc
      have := congrArg List.length hc
      simp at this
  · intro h
    have h' : f.Options.getPrimary.Encoding ≠ EncodingJSON ∧
        f.Options.getPrimary.Encoding ≠ EncodingProto := h
    have hc : Factory.connect f.Options.getPrimary calls =
        ((none, some (.unknownEncoding f.Options.getPrimary.Encoding)), calls) := by
      unfold Factory.connect
      rw [if_pos h']
    simp only [Factory.Initialize, hc]
    exact ⟨trivial, trivial, trivial, trivial⟩

/-- C9 at the factory of `NewFactory` with primary encoding `xml`: no handle stored,
no connector called. -/
theorem connect_unknown_encoding_witness :
    ((demoFactory "xml").Initialize 0 []).2.1 =
      .failed (.connectingPrimary (.unknownEncoding "xml")) ∧
    ((demoFactory "xml").Initialize 0 []).1.db = none ∧
    ((demoFactory "xml").Initialize 0 []).2.2 = [] :=
  have h := (connect_unknown_encoding (demoFactory "xml").Options.getPrimary []
    (demoFactory "xml") 0).2 (by decide)
  ⟨h.1, h.2.1, h.2.2.2⟩

/-! ## Flushed batches -/

theorem selectCase_flush_nonempty {V : Type} (d : Deps V) (w : SpanWriter) (st : Loop V)
    (ev : Event V) (h : (selectCase d w st ev).flush = true) :
    (selectCase d w st ev).loop.batch.elems ≠ [] := by
  cases ev with
  | span s =>
    simp only [selectCase, Slice.append]
    split <;> simp
  | timer rearm since =>
    simp only [selectCase, Bool.and_eq_true, decide_eq_true_eq, List.length_pos] at h ⊢
    exact h.2
  | finish =>
    simp only [selectCase, decide_eq_true_eq, List.length_pos] at h ⊢
    exact h

theorem selectCase_length_le {V : Type} (d : Deps V) (w : SpanWriter) (st : Loop V)
    (ev : Event V) (hc : st.batch.cap = w.size) (hl : st.batch.elems.length < w.size) :
    (selectCase d w st ev).loop.batch.elems.length ≤ w.size := by
  cases ev with
  | span s => exact (selectCase_span_bound d w st s hc hl).2.2.1
  | timer rearm since => exact Nat.le_of_lt hl
  | finish => exact Nat.le_of_lt hl

/-- An iteration either leaves the flushed batches as they are or adds the buffer it
flushed. -/
theorem iterate_flushed {V : Type} (d : Deps V) (w : SpanWriter) (db : Db) (st : Loop V)
    (it : Iter V) :
    (iterate d w db st it).flushed = st.flushed ∨
    ((selectCase d w st it.event).flush = true ∧
      (iterate d w db st it).flushed =
        st.flushed ++ [(selectCase d w st it.event).loop.batch.elems]) := by
  cases hf : (selectCase d w st it.event).flush with
  | true => exact Or.inr ⟨rfl, (iterate_of_flush d w db st it hf).2.2.1⟩
  | false =>
    left
    rw [iterate_of_no_flush d w db st it hf]
    cases it with
    | mk ev now => cases ev <;> rfl

theorem runFrom_flushed_nonempty {V : Type} (d : Deps V) (w : SpanWriter) (db : Db)
    (its : List (Iter V)) (st : Loop V) (h : ∀ b ∈ st.flushed, b ≠ []) :
    ∀ b ∈ (runFrom d w db st its).flushed, b ≠ [] := by
  induction its generalizing st with
  | nil => exact h
  | cons it its ih =>
    rw [runFrom_cons]
    split
    · exact ih st h
    · apply ih
      intro b hb
      rcases iterate_flushed d w db st it with he | ⟨hf, he⟩
      · rw [he] at hb; exact h b hb
      · rw [he, List.mem_append, List.mem_singleton] at hb
        rcases hb with hb | hb
        · exact h b hb
        · rw [hb]; exact selectCase_flush_nonempty d w st it.event hf

theorem runFrom_flushed_le {V : Type} (d : Deps V) (w : SpanWriter) (db : Db)
    (its : List (Iter V)) (st : Loop V) (h0 : 0 < w.size) (hc : st.batch.cap = w.size)
    (hl : st.batch.elems.length < w.size) (h : ∀ b ∈ st.flushed, b.length ≤ w.size) :
    ∀ b ∈ (runFrom d w db st its).flushed, b.length ≤ w.size := by
  induction its generalizing st with
  | nil => exact h
  | cons it its ih =>
    rw [runFrom_cons]
    split
    · exact ih st hc hl h
    · have hb := iterate_bound d w db st it h0 hc hl
      apply ih _ hb.1 hb.2
      intro b hb
      rcases iterate_flushed d w db st it with he | ⟨_, he⟩
      · rw [he] at hb; exact h b hb
      · rw [he, List.mem_append, List.mem_singleton] at hb
        rcases hb with hb | hb
        · exact h b hb
        · rw [hb]; exact selectCase_length_le d w st it.event hc hl

/-- C14. Every batch `backgroundWriter` gives to `writeBatch` is non-empty, and with
a size threshold of at least 1 it has at most that many spans; a timer expiry or a
finish signal that finds the buffer empty calls neither `writeBatch` nor the
database. -/
theorem flushed_batches_nonempty_and_bounded {V : Type} (d : Deps V) (w : SpanWriter)
    (db : Db) (armed start : Int) (its : List (Iter V)) :
    (∀ b ∈ (backgroundWriter d w db armed start its).flushed,
      b ≠ [] ∧ (1 ≤ w.size → b.length ≤ w.size)) ∧
    (∀ (st : Loop V) (rearm since now : Int), st.batch.elems = [] →
      (iterate d w db st ⟨.timer rearm since, now⟩).flushed = st.flushed ∧
      (iterate d w db st ⟨.timer rearm since, now⟩).log = st.log) ∧
    (∀ (st : Loop V) (now : Int), st.batch.elems = [] →
      (iterate d w db st ⟨.finish, now⟩).flushed = st.flushed ∧
      (iterate d w db st ⟨.finish, now⟩).log = st.log) := by
  refine ⟨fun b hb => ⟨?_, fun h0 => ?_⟩, ?_, ?_⟩
  · exact runFrom_flushed_nonempty d w db its (Loop.init w armed start)
      (by intro b hb; simp [Loop.init] at hb) b hb
  · exact runFrom_flushed_le d w db its (Loop.init w armed start) h0 rfl h0
      (by intro b hb; simp [Loop.init] at hb) b hb
  · intro st rearm since now he
    have hf : (selectCase d w st (Iter.mk (.timer rearm since) now).event).flush = false := by
      simp [selectCase, he]
    rw [iterate_of_no_flush d w db st _ hf]
    exact ⟨rfl, rfl⟩
  · intro st now he
    have hf : (selectCase d w st (Iter.mk .finish now).event).flush = false := by
      simp [selectCase, he]
    rw [iterate_of_no_flush d w db st _ hf]
    exact ⟨rfl, rfl⟩

/-- C14 at threshold 2: two spans are flushed as one batch of two; the timer expiry
and the finish signal that follow find the buffer empty and flush nothing. -/
theorem flushed_batches_nonempty_and_bounded_witness :
    ([demoSpan [], demoSpan []] : List (Span String)) ≠ [] ∧
    ([demoSpan [], demoSpan []] : List (Span String)).length ≤ 2 ∧
    (iterate demoDeps (demoWriter 2 1000) dbOk (Loop.init (demoWriter 2 1000) 0 0)
      ⟨.timer 5000 5000, 5001⟩).flushed = [] ∧
    (iterate demoDeps (demoWriter 2 1000) dbOk (Loop.init (demoWriter 2 1000) 0 0)
      ⟨.finish, 5001⟩).log = [] :=
  have h := flushed_batches_nonempty_and_bounded demoDeps (demoWriter 2 1000) dbOk 0 0
    [⟨.span (demoSpan []), 1⟩, ⟨.span (demoSpan []), 2⟩, ⟨.timer 5000 5000, 5001⟩,
      ⟨.finish, 5002⟩]
  have hb := h.1 [demoSpan [], demoSpan []] (by decide)
  ⟨hb.1, hb.2 (by decide), (h.2.1 (Loop.init (demoWriter 2 1000) 0 0) 5000 5000 5001 rfl).1,
    (h.2.2 (Loop.init (demoWriter 2 1000) 0 0) 5001 rfl).2⟩

/-! ## Failing rows -/

theorem RowsSucceed.head {db : Db} {base : List DbOp} {op : DbOp} {rows : List DbOp}
    (h : RowsSucceed db base (op :: rows)) : db base op = none := by
  have := h [] op rows rfl
  simpa using this

theorem RowsSucceed.tail {db : Db} {base : List DbOp} {op : DbOp} {rows : List DbOp}
    (h : RowsSucceed db base (op :: rows)) : RowsSucceed db (base ++ [op]) rows := by
  intro l₁ o l₂ he
  have := h (op :: l₁) o l₂ (by rw [he]; rfl)
  simpa using this

/-- The rows that go through: after them the loop of `writeModelBatch` continues with
the rest of the batch, one `Exec` made per span, in batch order. -/
theorem execModelRows_prefix {V : Type} (d : Deps V) (w : SpanWriter) (db : Db)
    (pre : List (Span V)) (bs : List (List Nat)) (rest : List (Span V)) (log : List DbOp)
    (hs : List.Forall₂ (fun sp b => marshalSpan d w sp = .ok b) pre bs)
    (hr : RowsSucceed db log (List.zipWith (modelRow d) pre bs)) :
    execModelRows d w db (pre ++ rest) log =
      execModelRows d w db rest (log ++ List.zipWith (modelRow d) pre bs) := by
  induction pre generalizing bs log with
  | nil =>
    cases bs with
    | nil => simp
    | cons b bs => simp at hs
  | cons sp pre ih =>
    cases bs with
    | nil => simp at hs
    | cons b bs =>
      rw [List.forall₂_cons] at hs
      simp only [List.zipWith_cons_cons] at hr ⊢
      have hm : (if w.encoding = EncodingJSON then d.jsonMarshal sp else d.protoMarshal sp) =
          .ok b := hs.1
      have hd : db log (DbOp.exec [.time sp.StartTime, .text (d.TraceIDString sp.TraceID),
          .blob b]) = none := hr.head
      rw [List.cons_append, execModelRows]
      simp only [hm, hd]
      refine (ih bs (log ++ [modelRow d sp b]) hs.2 hr.tail).trans ?_
      simp [modelRow]

/-- The same for the loop of `writeIndexBatch`. -/
theorem execIndexRows_prefix {V : Type} (d : Deps V) (db : Db)
    (pre rest : List (Span V)) (log : List DbOp)
    (hr : RowsSucceed db log (pre.map (indexRow d))) :
    execIndexRows d db (pre ++ rest) log =
      execIndexRows d db rest (log ++ pre.map (indexRow d)) := by
  induction pre generalizing log with
  | nil => simp
  | cons sp pre' ih =>
    simp only [List.map_cons] at hr ⊢
    have hd : db log (DbOp.exec [.time sp.StartTime, .text (d.TraceIDString sp.TraceID),
        .text sp.Process.ServiceName, .text sp.OperationName,
        .int (Microseconds sp.Duration), .texts (uniqueTagsForSpan d sp)]) = none := hr.head
    rw [List.cons_append, execIndexRows]
    simp only [hd]
    refine (ih (log ++ [indexRow d sp]) hr.tail).trans ?_
    simp [indexRow]

theorem count_modelRows {V : Type} (d : Deps V) (pre : List (Span V)) (bs : List (List Nat)) :
    (List.zipWith (modelRow d) pre bs).count .rollback = 0 ∧
    (List.zipWith (modelRow d) pre bs).count .commit = 0 := by
  induction pre generalizing bs with
  | nil => simp
  | cons sp pre ih =>
    cases bs with
    | nil => simp
    | cons b bs =>
      have := ih bs
      simp [modelRow, this.1, this.2]

theorem count_indexRows {V : Type} (d : Deps V) (pre : List (Span V)) :
    (pre.map (indexRow d)).count .rollback = 0 ∧ (pre.map (indexRow d)).count .commit = 0 := by
  induction pre with
  | nil => simp
  | cons sp pre ih => simp [indexRow, ih.1, ih.2]

theorem writeModelBatch_after_prepare {V : Type} (d : Deps V) (w : SpanWriter) (db : Db)
    (log : List DbOp) (batch : List (Span V)) (hb : db log .begin = none)
    (hp : db (log ++ [.begin]) (.prepare (modelQuery w)) = none) :
    writeModelBatch d w db log batch =
      match execModelRows d w db batch (log ++ [.begin, .prepare (modelQuery w)]) with
      | (some err, l) => (some err, l ++ [.stmtClose, .rollback])
      | (none, l) => (db l .commit, l ++ [.commit, .stmtClose]) := by
  have he : log ++ [DbOp.begin] ++ [DbOp.prepare (modelQuery w)] =
      log ++ [.begin, .prepare (modelQuery w)] := by simp
  unfold writeModelBatch
  simp only [modelQuery] at hp he ⊢
  rw [hb]
  dsimp only
  rw [hp]
  dsimp only
  rw [he]

theorem writeIndexBatch_after_prepare {V : Type} (d : Deps V) (w : SpanWriter) (db : Db)
    (log : List DbOp) (batch : List (Span V)) (hb : db log .begin = none)
    (hp : db (log ++ [.begin]) (.prepare (indexQuery w)) = none) :
    writeIndexBatch d w db log batch =
      match execIndexRows d db batch (log ++ [.begin, .prepare (indexQuery w)]) with
      | (some err, l) => (some err, l ++ [.stmtClose, .rollback])
      | (none, l) => (db l .commit, l ++ [.commit, .stmtClose]) := by
  have he : log ++ [DbOp.begin] ++ [DbOp.prepare (indexQuery w)] =
      log ++ [.begin, .prepare (indexQuery w)] := by simp
  unfold writeIndexBatch
  simp only [indexQuery] at hp he ⊢
  rw [hb]
  dsimp only
  rw [hp]
  dsimp only
  rw [he]

/-- C11. When the rows before position `i` go through and the row at `i` fails, at
serialisation or at `Exec` in `writeModelBatch`, at `Exec` in `writeIndexBatch`, the
calls made are: `Begin`, `Prepare`, one `Exec` for each span before `i` in batch
order (and, for a failing `Exec`, that failing call), `statement.Close`, one
`Rollback`. There is no `Commit`, no row after `i` is touched, and the error of the
failing row is returned. -/
theorem failing_row_rolls_back {V : Type} (d : Deps V) (w : SpanWriter) (db : Db)
    (log : List DbOp) (pre : List (Span V)) (span : Span V) (post : List (Span V))
    (err : Err) :
    (∀ bs : List (List Nat),
      db log .begin = none → db (log ++ [.begin]) (.prepare (modelQuery w)) = none →
      List.Forall₂ (fun sp b => marshalSpan d w sp = .ok b) pre bs →
      RowsSucceed db (log ++ [.begin, .prepare (modelQuery w)])
        (List.zipWith (modelRow d) pre bs) →
      marshalSpan d w span = .error err →
      writeModelBatch d w db log (pre ++ span :: post) =
        (some err, log ++ [.begin, .prepare (modelQuery w)] ++
          List.zipWith (modelRow d) pre bs ++ [.stmtClose, .rollback])) ∧
    (∀ (bs : List (List Nat)) (b : List Nat),
      db log .begin = none → db (log ++ [.begin]) (.prepare (modelQuery w)) = none →
      List.Forall₂ (fun sp b => marshalSpan d w sp = .ok b) pre bs →
      RowsSucceed db (log ++ [.begin, .prepare (modelQuery w)])
        (List.zipWith (modelRow d) pre bs) →
      marshalSpan d w span = .ok b →
      db (log ++ [.begin, .prepare (modelQuery w)] ++ List.zipWith (modelRow d) pre bs)
        (modelRow d span b) = some err →
      writeModelBatch d w db log (pre ++ span :: post) =
        (some err, log ++ [.begin, .prepare (modelQuery w)] ++
          List.zipWith (modelRow d) pre bs ++ [modelRow d span b, .stmtClose, .rollback])) ∧
    (db log .begin = none → db (log ++ [.begin]) (.prepare (indexQuery w)) = none →
      RowsSucceed db (log ++ [.begin, .prepare (indexQuery w)]) (pre.map (indexRow d)) →
      db (log ++ [.begin, .prepare (indexQuery w)] ++ pre.map (indexRow d))
        (indexRow d span) = some err →
      writeIndexBatch d w db log (pre ++ span :: post) =
        (some err, log ++ [.begin, .prepare (indexQuery w)] ++
          pre.map (indexRow d) ++ [indexRow d span, .stmtClose, .rollback])) ∧
    (∀ bs : List (List Nat),
      (List.zipWith (modelRow d) pre bs).count .rollback = 0 ∧
      (List.zipWith (modelRow d) pre bs).count .commit = 0) ∧
    ((pre.map (indexRow d)).count .rollback = 0 ∧
      (pre.map (indexRow d)).count .commit = 0) := by
  refine ⟨?_, ?_, ?_, fun bs => count_modelRows d pre bs, count_indexRows d pre⟩
  · intro bs hb hp hs hr hm
    rw [writeModelBatch_after_prepare d w db log _ hb hp,
      execModelRows_prefix d w db pre bs (span :: post) _ hs hr, execModelRows]
    have hm' : (if w.encoding = EncodingJSON then d.jsonMarshal span
        else d.protoMarshal span) = .error err := hm
    simp only [hm']
  · intro bs b hb hp hs hr hm hd
    rw [writeModelBatch_after_prepare d w db log _ hb hp,
      execModelRows_prefix d w db pre bs (span :: post) _ hs hr, execModelRows]
    have hm' : (if w.encoding = EncodingJSON then d.jsonMarshal span
        else d.protoMarshal span) = .ok b := hm
    have hd' : db (log ++ [.begin, .prepare (modelQuery w)] ++
        List.zipWith (modelRow d) pre bs)
        (DbOp.exec [.time span.StartTime, .text (d.TraceIDString span.TraceID), .blob b]) =
        some err := hd
    simp only [hm', hd']
    simp [modelRow]
  · intro hb hp hr hd
    rw [writeIndexBatch_after_prepare d w db log _ hb hp,
      execIndexRows_prefix d db pre (span :: post) _ hr, execIndexRows]
    have hd' : db (log ++ [.begin, .prepare (indexQuery w)] ++ pre.map (indexRow d))
        (DbOp.exec [.time span.StartTime, .text (d.TraceIDString span.TraceID),
          .text span.Process.ServiceName, .text span.OperationName,
          .int (Microseconds span.Duration), .texts (uniqueTagsForSpan d span)]) =
        some err := hd
    simp only [hd']
    simp [indexRow]

/-- C11 on batches whose second span fails: at serialisation (`proto.Marshal` rejects
the tagged span), at `Exec` in the primary write and at `Exec` in the index write
(the database fails the second `Exec`). -/
theorem failing_row_rolls_back_witness :
    writeModelBatch failingDeps (demoWriter 3 1000) dbOk []
        ([demoSpan []] ++ demoSpan [⟨"k", "v"⟩] :: [demoSpan []]) =
      (some (.external "cannot marshal"),
        [] ++ [.begin, .prepare (modelQuery (demoWriter 3 1000))] ++
          List.zipWith (modelRow failingDeps) [demoSpan []] [[10, 0]] ++
          [.stmtClose, .rollback]) ∧
    writeModelBatch demoDeps (demoWriter 3 1000) dbSecondExecFails []
        ([demoSpan []] ++ demoSpan [] :: [demoSpan []]) =
      (some (.external "broken pipe"),
        [] ++ [.begin, .prepare (modelQuery (demoWriter 3 1000))] ++
          List.zipWith (modelRow demoDeps) [demoSpan []] [[10, 0]] ++
          [modelRow demoDeps (demoSpan []) [10, 0], .stmtClose, .rollback]) ∧
    writeIndexBatch demoDeps (demoWriter 3 1000) dbSecondExecFails []
        ([demoSpan []] ++ demoSpan [] :: [demoSpan []]) =
      (some (.external "broken pipe"),
        [] ++ [.begin, .prepare (indexQuery (demoWriter 3 1000))] ++
          [demoSpan []].map (indexRow demoDeps) ++
          [indexRow demoDeps (demoSpan []) , .stmtClose, .rollback]) :=
  ⟨(failing_row_rolls_back failingDeps (demoWriter 3 1000) dbOk [] [demoSpan []]
      (demoSpan [⟨"k", "v"⟩]) [demoSpan []] (.external "cannot marshal")).1 [[10, 0]]
      rfl rfl (List.Forall₂.cons rfl List.Forall₂.nil) (fun _ _ _ _ => rfl) rfl,
   (failing_row_rolls_back demoDeps (demoWriter 3 1000) dbSecondExecFails [] [demoSpan []]
      (demoSpan []) [demoSpan []] (.external "broken pipe")).2.1 [[10, 0]] [10, 0]
      rfl rfl (List.Forall₂.cons rfl List.Forall₂.nil)
      (by
        intro l₁ op l₂ h
        cases l₁ with
        | nil =>
          simp only [List.zipWith_cons_cons, List.zipWith_nil_right, List.nil_append,
            List.cons.injEq] at h
          rw [← h.1]
          rfl
        | cons a l => simp at h)
      rfl rfl,
   (failing_row_rolls_back demoDeps (demoWriter 3 1000) dbSecondExecFails [] [demoSpan []]
      (demoSpan []) [demoSpan []] (.external "broken pipe")).2.2.1
      rfl rfl
      (by
        intro l₁ op l₂ h
        cases l₁ with
        | nil =>
          simp only [List.map_cons, List.map_nil, List.nil_append, List.cons.injEq] at h
          rw [← h.1]
          rfl
        | cons a l => simp at h)
      rfl⟩

/-! ## Archive readers and writers -/

theorem Initialize_options {R W : Type} (f : Factory R W) (logger : Logger)
    (calls : List NamespaceFields) :
    (f.Initialize logger calls).1.Options = f.Options := by
  unfold Factory.Initialize
  dsimp only
  split
  · rfl
  · split
    · rfl
    · split
      · split <;> rfl
      · rfl

/-- With the archive not enabled, `Initialize` leaves the archive handle as it was. -/
theorem Initialize_archive_disabled {R W : Type} (f : Factory R W) (logger : Logger)
    (calls : List NamespaceFields) (cfg : namespaceConfig)
    (hc : f.Options.other archiveNamespace = some cfg) (he : cfg.Enabled = false) :
    (f.Initialize logger calls).1.archive = f.archive := by
  unfold Factory.Initialize
  dsimp only
  split
  · rfl
  · rw [hc]
    dsimp only
    rw [he]
    rfl

/-- C13. On the factory left by `Initialize`: without archive handle
`CreateArchiveSpanWriter` and `CreateArchiveSpanReader` return `(nil, nil)` and call no
maker, and there is no handle when the archive is not enabled on a factory that had
none; with an archive handle `CreateArchiveSpanWriter` returns what the writer maker
returns on one call with the logger, that handle, the empty index table, and the
spans table, encoding, batch delay and batch size of the archive configuration. -/
theorem archive_writer_creation {R W : Type} (f : Factory R W) (logger : Logger)
    (calls : List NamespaceFields) (wcalls : List WriterCall) (rcalls : List ReaderCall) :
    ((f.Initialize logger calls).1.archive = none →
      (f.Initialize logger calls).1.CreateArchiveSpanWriter wcalls =
        some ((none, none), wcalls) ∧
      (f.Initialize logger calls).1.CreateArchiveSpanReader rcalls =
        some ((none, none), rcalls)) ∧
    (∀ cfg : namespaceConfig, f.archive = none →
      f.Options.other archiveNamespace = some cfg → cfg.Enabled = false →
      (f.Initialize logger calls).1.archive = none) ∧
    (∀ (archive : SqlDB) (cfg : namespaceConfig),
      (f.Initialize logger calls).1.archive = some archive →
      f.Options.other archiveNamespace = some cfg →
      (f.Initialize logger calls).1.CreateArchiveSpanWriter wcalls =
        some (f.makeWriter (f.Initialize logger calls).1.logger (some archive) ""
            cfg.SpansTable cfg.Encoding cfg.WriteBatchDelay cfg.WriteBatchSize,
          wcalls ++ [⟨(f.Initialize logger calls).1.logger, some archive, "",
            cfg.SpansTable, cfg.Encoding, cfg.WriteBatchDelay, cfg.WriteBatchSize⟩])) := by
  refine ⟨?_, ?_, ?_⟩
  · intro h
    unfold Factory.CreateArchiveSpanWriter Factory.CreateArchiveSpanReader
    rw [h]
    exact ⟨rfl, rfl⟩
  · intro cfg hn hc he
    rw [Initialize_archive_disabled f logger calls cfg hc he]
    exact hn
  · intro archive cfg h hc
    have hm : (f.Initialize logger calls).1.makeWriter = f.makeWriter := by
      unfold Factory.Initialize
      dsimp only
      split
      · rfl
      · split
        · rfl
        · split
          · split <;> rfl
          · rfl
    unfold Factory.CreateArchiveSpanWriter
    rw [h, Initialize_options, hc, hm]

/-- C13 at the factories of `NewFactory`: archive not enabled, no handle and no call of
the maker; archive enabled with `IndexTable` set to `jaeger_index_v2`, one call of the
maker, with the empty index table. -/
theorem archive_writer_creation_witness :
    ((demoFactory "json").Initialize 0 []).1.CreateArchiveSpanWriter [] =
      some ((none, none), []) ∧
    ((demoArchiveFactory "jaeger_index_v2").Initialize 0 []).1.CreateArchiveSpanWriter [] =
      some ((some ⟨some 0, some 1, "", "jaeger_archive_spans_v2", "protobuf", 5000000000,
          10000⟩, none),
        [⟨some 0, some 1, "", "jaeger_archive_spans_v2", "protobuf", 5000000000, 10000⟩]) :=
  ⟨((archive_writer_creation (demoFactory "json") 0 [] [] []).1
      ((archive_writer_creation (demoFactory "json") 0 [] [] []).2.1
        (Option.get ((demoFactory "json").Options.other archiveNamespace) rfl)
        rfl rfl rfl)).1,
   (archive_writer_creation (demoArchiveFactory "jaeger_index_v2") 0 [] [] []).2.2 1
      (Option.get ((demoArchiveFactory "jaeger_index_v2").Options.other archiveNamespace) rfl)
      (by decide) rfl⟩

/-! ## Options from flags -/

theorem Flag.assign_name (name : String) (value : FlagValue) (g : Flag) :
    (Flag.assign name value g).name = g.name := by
  unfold Flag.assign
  split <;> rfl

theorem find_map_assign (l : List Flag) (name key : String) (value : FlagValue) :
    (l.map (Flag.assign name value)).find? (fun f => f.name == key) =
      (l.find? (fun f => f.name == key)).map (Flag.assign name value) := by
  induction l with
  | nil => rfl
  | cons g l ih =>
    simp only [List.map_cons, List.find?_cons, Flag.assign_name]
    cases (g.name == key) with
    | true => rfl
    | false => exact ih

theorem lookup_name (fs : FlagSet) (key : String) (f : Flag) (h : fs.lookup key = some f) :
    f.name = key := by
  have hn := List.find?_some h
  simpa using hn

/-- Setting a flag needs a registered flag of the same type, and reassigns exactly the
flag of that name. -/
theorem set_lookup (fs fs' : FlagSet) (name : String) (value : FlagValue)
    (h : fs.Set name value = some fs') :
    (∃ f, fs.lookup name = some f ∧ f.value.kind = value.kind) ∧
    ∀ key, fs'.lookup key = (fs.lookup key).map (Flag.assign name value) := by
  unfold FlagSet.Set at h
  split at h
  · exact absurd h (by simp)
  · rename_i f hf
    split at h
    · rename_i hk
      simp only [Option.some.injEq] at h
      subst h
      exact ⟨⟨f, hf, hk⟩, fun key => find_map_assign fs.flags name key value⟩
    · exact absurd h (by simp)

theorem given_cons (arg : String × FlagValue) (args : List (String × FlagValue))
    (key : String) :
    given (arg :: args) key =
      match given args key with
      | some value => some value
      | none => if arg.1 == key then some arg.2 else none := rfl

/-- After parsing: a flag given on the command line holds the last value given, of
the type it was registered with, and counts as changed; any other flag is as it was. -/
theorem parse_lookup (args : List (String × FlagValue)) (fs v : FlagSet)
    (h : fs.Parse args = some v) (key : String) :
    match given args key with
    | some x => ∃ f, fs.lookup key = some f ∧ x.kind = f.value.kind ∧
        v.lookup key = some ⟨f.name, x, true⟩
    | none => v.lookup key = fs.lookup key := by
  induction args generalizing fs with
  | nil =>
    simp only [FlagSet.Parse, Option.some.injEq] at h
    subst h
    rfl
  | cons arg args ih =>
    unfold FlagSet.Parse at h
    split at h
    · exact absurd h (by simp)
    · rename_i fs1 hs
      obtain ⟨⟨f0, hf0, hk0⟩, hl⟩ := set_lookup fs fs1 arg.1 arg.2 hs
      have ih1 := ih fs1 h
      rw [given_cons]
      cases hg : given args key with
      | some x =>
        rw [hg] at ih1
        obtain ⟨f1, hf1, hk1, hv⟩ := ih1
        rw [hl key] at hf1
        cases hf : fs.lookup key with
        | none => rw [hf] at hf1; simp at hf1
        | some f =>
          rw [hf] at hf1
          simp only [Option.map_some', Option.some.injEq] at hf1
          refine ⟨f, rfl, ?_, ?_⟩
          · rw [hk1, ← hf1]
            unfold Flag.assign
            split
            · rename_i hn
              have h1 : f.name = key := lookup_name fs key f hf
              have h2 : key = arg.1 := by
                rw [← h1]; simpa using hn
              rw [← h2, hf] at hf0
              simp only [Option.some.injEq] at hf0
              rw [hf0]
              exact hk0.symm
            · rfl
          · rw [hv, ← hf1, Flag.assign_name]
      | none =>
        rw [hg] at ih1
        dsimp only at ih1 ⊢
        by_cases hk : arg.1 = key
        · subst hk
          simp only [beq_self_eq_true, if_true]
          refine ⟨f0, hf0, hk0.symm, ?_⟩
          rw [ih1, hl, hf0]
          have hn : f0.name = arg.1 := lookup_name fs arg.1 f0 hf0
          simp [Flag.assign, hn]
        · have hb : (arg.1 == key) = false := by simpa using hk
          simp only [hb, Bool.false_eq_true, if_false]
          rw [ih1, hl]
          cases hf : fs.lookup key with
          | none => rfl
          | some f =>
            have hn : f.name = key := lookup_name fs key f hf
            have hne : ¬ f.name = arg.1 := by rw [hn]; exact fun e => hk e.symm
            simp [Flag.assign, hne]

/-- What viper finds for the key of a registered flag after parsing: the value given
on the command line, else the text of another source, else the default. -/
theorem find_registered (args : List (String × FlagValue)) (fs v : FlagSet)
    (env : String → Option String) (tb : String → Bool) (td ti : String → Int)
    (h : fs.Parse args = some v) (key name : String) (dflt : FlagValue)
    (hd : fs.lookup key = some ⟨name, dflt, false⟩) :
    (Viper.find ⟨v, env, tb, td, ti⟩ key =
      match given args key with
      | some x => some (.flag x)
      | none =>
        match env key with
        | some s => some (.text s)
        | none => some (.flag dflt)) ∧
    ∀ x, given args key = some x → x.kind = dflt.kind := by
  have hp := parse_lookup args fs v h key
  cases hg : given args key with
  | some x =>
    rw [hg] at hp
    obtain ⟨f, hf, hk, hv⟩ := hp
    rw [hd] at hf
    simp only [Option.some.injEq] at hf
    subst hf
    refine ⟨by simp [Viper.find, hv], ?_⟩
    intro y hy
    simp only [Option.some.injEq] at hy
    subst hy
    exact hk
  | none =>
    rw [hg] at hp
    dsimp only at hp
    refine ⟨by simp only [Viper.find, hp, hd]; rfl, ?_⟩
    intro y hy
    simp at hy

/-- What viper finds for a key without flag: what its other sources hold. -/
theorem find_unregistered (args : List (String × FlagValue)) (fs v : FlagSet)
    (env : String → Option String) (tb : String → Bool) (td ti : String → Int)
    (h : fs.Parse args = some v) (key : String) (hd : fs.lookup key = none) :
    Viper.find ⟨v, env, tb, td, ti⟩ key = (env key).map .text := by
  have hp := parse_lookup args fs v h key
  cases hg : given args key with
  | some x =>
    rw [hg] at hp
    obtain ⟨f, hf, _⟩ := hp
    rw [hd] at hf
    simp at hf
  | none =>
    rw [hg] at hp
    dsimp only at hp
    simp only [Viper.find, hp, hd]

theorem fromFlag_string (args : List (String × FlagValue)) (fs v : FlagSet)
    (env : String → Option String) (tb : String → Bool) (td ti : String → Int)
    (h : fs.Parse args = some v) (key name dflt : String)
    (hd : fs.lookup key = some ⟨name, .string dflt, false⟩) :
    FromFlag args key ((env key).map .string)
      (.string (Viper.GetString ⟨v, env, tb, td, ti⟩ key)) (.string dflt) := by
  obtain ⟨hf, hk⟩ := find_registered args fs v env tb td ti h key name _ hd
  unfold FromFlag Viper.GetString
  rw [hf]
  cases hg : given args key with
  | some x =>
    have := hk x hg
    cases x <;> simp [FlagValue.kind] at this
    rfl
  | none => cases env key <;> rfl

theorem fromFlag_bool (args : List (String × FlagValue)) (fs v : FlagSet)
    (env : String → Option String) (tb : String → Bool) (td ti : String → Int)
    (h : fs.Parse args = some v) (key name : String) (dflt : Bool)
    (hd : fs.lookup key = some ⟨name, .bool dflt, false⟩) :
    FromFlag args key ((env key).map (fun s => .bool (tb s)))
      (.bool (Viper.GetBool ⟨v, env, tb, td, ti⟩ key)) (.bool dflt) := by
  obtain ⟨hf, hk⟩ := find_registered args fs v env tb td ti h key name _ hd
  unfold FromFlag Viper.GetBool
  rw [hf]
  cases hg : given args key with
  | some x =>
    have := hk x hg
    cases x <;> simp [FlagValue.kind] at this
    rfl
  | none => cases env key <;> rfl

theorem fromFlag_duration (args : List (String × FlagValue)) (fs v : FlagSet)
    (env : String → Option String) (tb : String → Bool) (td ti : String → Int)
    (h : fs.Parse args = some v) (key name : String) (dflt : Int)
    (hd : fs.lookup key = some ⟨name, .duration dflt, false⟩) :
    FromFlag args key ((env key).map (fun s => .duration (td s)))
      (.duration (Viper.GetDuration ⟨v, env, tb, td, ti⟩ key)) (.duration dflt) := by
  obtain ⟨hf, hk⟩ := find_registered args fs v env tb td ti h key name _ hd
  unfold FromFlag Viper.GetDuration
  rw [hf]
  cases hg : given args key with
  | some x =>
    have := hk x hg
    cases x <;> simp [FlagValue.kind] at this
    rfl
  | none => cases env key <;> rfl

theorem fromFlag_int (args : List (String × FlagValue)) (fs v : FlagSet)
    (env : String → Option String) (tb : String → Bool) (td ti : String → Int)
    (h : fs.Parse args = some v) (key name : String) (dflt : Int)
    (hd : fs.lookup key = some ⟨name, .int dflt, false⟩) :
    FromFlag args key ((env key).map (fun s => .int (ti s)))
      (.int (Viper.GetInt ⟨v, env, tb, td, ti⟩ key)) (.int dflt) := by
  obtain ⟨hf, hk⟩ := find_registered args fs v env tb td ti h key name _ hd
  unfold FromFlag Viper.GetInt
  rw [hf]
  cases hg : given args key with
  | some x =>
    have := hk x hg
    cases x <;> simp [FlagValue.kind] at this
    rfl
  | none => cases env key <;> rfl

/-- A key without flag reads as what the other sources hold, the empty string when they
hold nothing, whatever the command line. -/
theorem getString_unregistered (args : List (String × FlagValue)) (fs v : FlagSet)
    (env : String → Option String) (tb : String → Bool) (td ti : String → Int)
    (h : fs.Parse args = some v) (key : String) (hd : fs.lookup key = none) :
    Viper.GetString ⟨v, env, tb, td, ti⟩ key = (env key).getD "" := by
  unfold Viper.GetString
  rw [find_unregistered args fs v env tb td ti h key hd]
  cases env key <;> rfl

/-- The flags `AddFlags` registers for the options of `NewOptions`: seven for the
primary namespace, six for the archive, each with the default of `NewOptions`. -/
theorem AddFlags_NewOptions (dc nc : Connector) :
    (NewOptions dc nc primaryNamespace [archiveNamespace]).AddFlags ⟨[]⟩ =
      some ⟨[⟨"clickhouse.datasource", .string defaultDatasource, false⟩,
        ⟨"clickhouse.operations-table", .string defaultOperationsTable, false⟩,
        ⟨"clickhouse.index-table", .string defaultIndexTable, false⟩,
        ⟨"clickhouse.spans-table", .string defaultSpansTable, false⟩,
        ⟨"clickhouse.write-batch-delay", .duration defaultWriteBatchDelay, false⟩,
        ⟨"clickhouse.write-batch-size", .int defaultWriteBatchSize, false⟩,
        ⟨"clickhouse.encoding", .string defaultEncoding, false⟩,
        ⟨"clickhouse-archive.enabled", .bool false, false⟩,
        ⟨"clickhouse-archive.datasource", .string defaultDatasource, false⟩,
        ⟨"clickhouse-archive.spans-table", .string defaultArchiveSpansTable, false⟩,
        ⟨"clickhouse-archive.write-batch-delay", .duration defaultWriteBatchDelay, false⟩,
        ⟨"clickhouse-archive.write-batch-size", .int defaultWriteBatchSize, false⟩,
        ⟨"clickhouse-archive.encoding", .string defaultEncoding, false⟩]⟩ := by
  rfl

/-- C12, as amended. For the options of `NewOptions(primaryNamespace,
archiveNamespace)`, the flags registered by `AddFlags`, a command line that parses,
and `InitFromViper` on the viper bound to those flags: the datasource, the table
names, the batch delay, the batch size and the encoding of the primary and of the
archive configuration, and the archive's `Enabled`, hold the value given on the
command line for their flag when one is given; otherwise what another source of the
viper (an environment variable) gives the key, when it gives something; and otherwise
the default of `NewOptions` (`false` for the archive's `Enabled`). The archive's
`OperationsTable` and `IndexTable`, which have no flag, hold what another source gives
their key and are empty when none does. -/
theorem options_from_flags (dc nc : Connector) (args : List (String × FlagValue))
    (fs v : FlagSet) (env : String → Option String) (tb : String → Bool)
    (td ti : String → Int)
    (hf : (NewOptions dc nc primaryNamespace [archiveNamespace]).AddFlags ⟨[]⟩ = some fs)
    (hp : fs.Parse args = some v) :
    ∃ archive : namespaceConfig,
      ((NewOptions dc nc primaryNamespace [archiveNamespace]).InitFromViper
        ⟨v, env, tb, td, ti⟩).other archiveNamespace = some archive ∧
      FromFlag args "clickhouse.datasource" ((env "clickhouse.datasource").map .string)
        (.string ((NewOptions dc nc primaryNamespace [archiveNamespace]).InitFromViper
          ⟨v, env, tb, td, ti⟩).getPrimary.Datasource)
        (.string defaultDatasource) ∧
      FromFlag args "clickhouse.operations-table" ((env "clickhouse.operations-table").map .string)
        (.string ((NewOptions dc nc primaryNamespace [archiveNamespace]).InitFromViper
          ⟨v, env, tb, td, ti⟩).getPrimary.OperationsTable)
        (.string defaultOperationsTable) ∧
      FromFlag args "clickhouse.index-table" ((env "clickhouse.index-table").map .string)
        (.string ((NewOptions dc nc primaryNamespace [archiveNamespace]).InitFromViper
          ⟨v, env, tb, td, ti⟩).getPrimary.IndexTable)
        (.string defaultIndexTable) ∧
      FromFlag args "clickhouse.spans-table" ((env "clickhouse.spans-table").map .string)
        (.string ((NewOptions dc nc primaryNamespace [archiveNamespace]).InitFromViper
          ⟨v, env, tb, td, ti⟩).getPrimary.SpansTable)
        (.string defaultSpansTable) ∧
      FromFlag args "clickhouse.write-batch-delay" ((env "clickhouse.write-batch-delay").map (fun s => .duration (td s)))
        (.duration ((NewOptions dc nc primaryNamespace [archiveNamespace]).InitFromViper
          ⟨v, env, tb, td, ti⟩).getPrimary.WriteBatchDelay)
        (.duration defaultWriteBatchDelay) ∧
      FromFlag args "clickhouse.write-batch-size" ((env "clickhouse.write-batch-size").map (fun s => .int (ti s)))
        (.int ((NewOptions dc nc primaryNamespace [archiveNamespace]).InitFromViper
          ⟨v, env, tb, td, ti⟩).getPrimary.WriteBatchSize)
        (.int defaultWriteBatchSize) ∧
      FromFlag args "clickhouse.encoding" ((env "clickhouse.encoding").map .string)
        (.string ((NewOptions dc nc primaryNamespace [archiveNamespace]).InitFromViper
          ⟨v, env, tb, td, ti⟩).getPrimary.Encoding)
        (.string defaultEncoding) ∧
      FromFlag args "clickhouse-archive.enabled" ((env "clickhouse-archive.enabled").map (fun s => .bool (tb s)))
        (.bool archive.Enabled) (.bool false) ∧
      FromFlag args "clickhouse-archive.datasource" ((env "clickhouse-archive.datasource").map .string)
        (.string archive.Datasource) (.string defaultDatasource) ∧
      FromFlag args "clickhouse-archive.spans-table" ((env "clickhouse-archive.spans-table").map .string)
        (.string archive.SpansTable) (.string defaultArchiveSpansTable) ∧
      FromFlag args "clickhouse-archive.write-batch-delay" ((env "clickhouse-archive.write-batch-delay").map (fun s => .duration (td s)))
        (.duration archive.WriteBatchDelay) (.duration defaultWriteBatchDelay) ∧
      FromFlag args "clickhouse-archive.write-batch-size" ((env "clickhouse-archive.write-batch-size").map (fun s => .int (ti s)))
        (.int archive.WriteBatchSize) (.int defaultWriteBatchSize) ∧
      FromFlag args "clickhouse-archive.encoding" ((env "clickhouse-archive.encoding").map .string)
        (.string archive.Encoding) (.string defaultEncoding) ∧
      archive.OperationsTable = (env "clickhouse-archive.operations-table").getD "" ∧
      archive.IndexTable = (env "clickhouse-archive.index-table").getD "" := by
  rw [AddFlags_NewOptions dc nc, Option.some.injEq] at hf
  subst hf
  refine ⟨_, rfl, ?_, ?_, ?_, ?_, ?_, ?_, ?_, ?_, ?_, ?_, ?_, ?_, ?_, ?_, ?_⟩
  · exact fromFlag_string args _ v env tb td ti hp "clickhouse.datasource" _ _ rfl
  · exact fromFlag_string args _ v env tb td ti hp "clickhouse.operations-table" _ _ rfl
  · exact fromFlag_string args _ v env tb td ti hp "clickhouse.index-table" _ _ rfl
  · exact fromFlag_string args _ v env tb td ti hp "clickhouse.spans-table" _ _ rfl
  · exact fromFlag_duration args _ v env tb td ti hp "clickhouse.write-batch-delay" _ _ rfl
  · exact fromFlag_int args _ v env tb td ti hp "clickhouse.write-batch-size" _ _ rfl
  · exact fromFlag_string args _ v env tb td ti hp "clickhouse.encoding" _ _ rfl
  · exact fromFlag_bool args _ v env tb td ti hp "clickhouse-archive.enabled" _ _ rfl
  · exact fromFlag_string args _ v env tb td ti hp "clickhouse-archive.datasource" _ _ rfl
  · exact fromFlag_string args _ v env tb td ti hp "clickhouse-archive.spans-table" _ _ rfl
  · exact fromFlag_duration args _ v env tb td ti hp "clickhouse-archive.write-batch-delay"
      _ _ rfl
  · exact fromFlag_int args _ v env tb td ti hp "clickhouse-archive.write-batch-size" _ _ rfl
  · exact fromFlag_string args _ v env tb td ti hp "clickhouse-archive.encoding" _ _ rfl
  · exact getString_unregistered args _ v env tb td ti hp
      "clickhouse-archive.operations-table" rfl
  · exact getString_unregistered args _ v env tb td ti hp "clickhouse-archive.index-table" rfl

/-- C12 as amended, on the command line of `TestParseOptions` with nothing in the
environment: the values given are taken, and the archive's `OperationsTable` and
`IndexTable` are empty. -/
theorem options_from_flags_witness :
    ∃ archive : namespaceConfig,
      ((NewOptions demoConnector demoConnector primaryNamespace
        [archiveNamespace]).InitFromViper (demoViper demoArgs noEnv)).other
        archiveNamespace = some archive ∧
      ((NewOptions demoConnector demoConnector primaryNamespace
        [archiveNamespace]).InitFromViper (demoViper demoArgs noEnv)).getPrimary.Datasource =
        "tcp://localhost:9000?debug=true&database=jaeger_primary_huh" ∧
      ((NewOptions demoConnector demoConnector primaryNamespace
        [archiveNamespace]).InitFromViper
          (demoViper demoArgs noEnv)).getPrimary.WriteBatchDelay = 69000000 ∧
      archive.Enabled = true ∧
      archive.WriteBatchSize = 42 ∧
      archive.OperationsTable = "" ∧
      archive.IndexTable = "" :=
  match options_from_flags demoConnector demoConnector demoArgs _ (demoParsed demoArgs)
      noEnv (demoViper demoArgs noEnv).toBool (demoViper demoArgs noEnv).toDuration
      (demoViper demoArgs noEnv).toInt
      (AddFlags_NewOptions demoConnector demoConnector) (by decide) with
  | ⟨archive, h⟩ =>
    ⟨archive, h.1, FlagValue.string.inj h.2.1, FlagValue.duration.inj h.2.2.2.2.2.1,
      FlagValue.bool.inj h.2.2.2.2.2.2.2.2.1, FlagValue.int.inj h.2.2.2.2.2.2.2.2.2.2.2.2.1,
      h.2.2.2.2.2.2.2.2.2.2.2.2.2.2.1, h.2.2.2.2.2.2.2.2.2.2.2.2.2.2.2⟩

/-- C12 as stated fails when the environment holds a key: with an empty command line
and variables set for the archive's index table and the primary datasource, the
archive's `IndexTable` is not empty and the primary `Datasource` is not the default
of `NewOptions`, although no flag was given. -/
theorem options_taken_from_environment :
    (((NewOptions demoConnector demoConnector primaryNamespace
      [archiveNamespace]).InitFromViper (demoViper [] demoEnv)).other archiveNamespace).map
        (fun cfg => cfg.IndexTable) = some "jaeger_index_v2" ∧
    ((NewOptions demoConnector demoConnector primaryNamespace
      [archiveNamespace]).InitFromViper (demoViper [] demoEnv)).getPrimary.Datasource =
        "tcp://clickhouse:9000" ∧
    defaultDatasource = "tcp://localhost:9000" := by
  decide

/-- The empty command line of `TestDefaultOptionsParsing`, nothing in the environment:
every field read from a flag is the default of `NewOptions`. -/
theorem options_default_example :
    ((NewOptions demoConnector demoConnector primaryNamespace
      [archiveNamespace]).InitFromViper (demoViper [] noEnv)).getPrimary.toNamespaceFields =
      { ns := "clickhouse", Enabled := false, Datasource := "tcp://localhost:9000",
        OperationsTable := "jaeger_operations_v2", IndexTable := "jaeger_index_v2",
        SpansTable := "jaeger_spans_v2", WriteBatchDelay := 5000000000,
        WriteBatchSize := 10000, Encoding := "protobuf" } ∧
    (((NewOptions demoConnector demoConnector primaryNamespace
      [archiveNamespace]).InitFromViper (demoViper [] noEnv)).other archiveNamespace).map
        (fun cfg => cfg.toNamespaceFields) =
      some
        { ns := "clickhouse-archive", Enabled := false,
          Datasource := "tcp://localhost:9000", OperationsTable := "", IndexTable := "",
          SpansTable := "jaeger_archive_spans_v2", WriteBatchDelay := 5000000000,
          WriteBatchSize := 10000, Encoding := "protobuf" } := by
  constructor <;> decide

end Clickhouse
